import Mathlib

/-!
# OpQue: a write-coalescing operation queue

A shallow embedding of `lib/index.js` and `lib/validate-options/index.js`.

JavaScript values are embedded as the type `JsVal`.  Objects are association
lists in insertion order; the instance is a record whose fields are the
fields of the class together with the part of the host runtime the class
drives (the interval table, the invocations of the flush callback and the
calls made on the logger).

Boundaries of the embedding:
* numbers are integers (no fractions, `NaN`, infinities or signed zero), and
  a number stands for itself only up to 9007199254740991 in absolute value,
  the integers the runtime tells apart (see `representable`);
* every object inherits the properties of `Object.prototype`, which a read
  under a computed key finds when the object has no own property of that
  name (see `property`); the prototype objects themselves are shared with
  the rest of the program and are not part of an instance, so a write that
  lands on one of them is not represented, and a write under the key
  `__proto__` is represented as an ordinary property write;
* objects convert to a property key the default way (`[object Object]`);
* the fields of an object are kept in insertion order; that the runtime
  enumerates integer-like keys first is not represented;
* documents are values, not references: a caller that mutates a document
  after queueing it is outside the model;
* the lodash functions follow lodash 4.
-/

namespace Opque

/-! ## Values -/

/-- JavaScript values. -/
inductive JsVal where
  | undefined
  | null
  | bool (b : Bool)
  | num (n : Int)
  | str (s : String)
  | func (source : String)
  | arr (items : List JsVal)
  | obj (fields : List (String × JsVal))
  deriving Repr, Inhabited

/-- Own properties of a plain object, in insertion order. -/
abbrev Fields := List (String × JsVal)

/-- Own-property test, `key in object`. -/
def hasField (key : String) : Fields → Bool
  | [] => false
  | (k, _) :: rest => if k = key then true else hasField key rest

/-- Property read on a plain object, `object[key]`: `undefined` when absent. -/
def getField (key : String) : Fields → JsVal
  | [] => JsVal.undefined
  | (k, v) :: rest => if k = key then v else getField key rest

/-- Property write on a plain object, `object[key] = value`: an existing
property keeps its place, a new one is added at the end. -/
def setField (key : String) (value : JsVal) : Fields → Fields
  | [] => [(key, value)]
  | (k, v) :: rest =>
    if k = key then (k, value) :: rest else (k, v) :: setField key value rest

/-- The property names of an object. -/
def keysOf (fields : Fields) : List String := fields.map Prod.fst

/-- The array-like view `0: x0, 1: x1, ...` of a list of elements, counting
from `start`. -/
def indexedFrom : Nat → List JsVal → Fields
  | _, [] => []
  | start, x :: xs => (toString start, x) :: indexedFrom (start + 1) xs

/-- The characters of a string as one-character strings. -/
def charsOf (s : String) : List JsVal :=
  s.toList.map (fun c => JsVal.str (String.singleton c))

mutual
/-- String conversion of a value (`String(value)`), which is also how a value
used as a property key is converted.  A number is printed in decimal digits,
which is what the runtime prints for the integers it can tell apart (those
that are `representable`); beyond them it rounds, and from 10^21 on it prints
an exponent. -/
def toPropertyKey : JsVal → String
  | JsVal.undefined => "undefined"
  | JsVal.null => "null"
  | JsVal.bool true => "true"
  | JsVal.bool false => "false"
  | JsVal.num n => toString n
  | JsVal.str s => s
  | JsVal.func source => source
  | JsVal.arr items => joinItems items
  | JsVal.obj _ => "[object Object]"
/-- The comma-separated elements of an array (`Array.prototype.join`), where
`undefined` and `null` elements give the empty string. -/
def joinItems : List JsVal → String
  | [] => ""
  | x :: xs =>
    let head := match x with
      | JsVal.undefined => ""
      | JsVal.null => ""
      | v => toPropertyKey v
    match xs with
    | [] => head
    | _ :: _ => head ++ "," ++ joinItems xs
end

/-- Own-property read on a value that is neither `undefined` nor `null`: the
property `key` the value itself carries, `undefined` when it carries none.
This is what `value[key]` reads for every key that is not the name of an
inherited property, such as the constant keys `operation`, `doc`, `metaData`,
`flushTime`, `flushCb` and `identifier` of the source; for a computed key see
`property`. -/
def member (value : JsVal) (key : String) : JsVal :=
  match value with
  | JsVal.obj fields => getField key fields
  | JsVal.arr items =>
    if key = "length" then JsVal.num items.length
    else getField key (indexedFrom 0 items)
  | JsVal.str s =>
    if key = "length" then JsVal.num s.length
    else getField key (indexedFrom 0 (charsOf s))
  | _ => JsVal.undefined

/-- The names of the properties every object inherits from
`Object.prototype`. -/
def objectPrototypeNames : List String :=
  ["constructor", "__defineGetter__", "__defineSetter__", "hasOwnProperty",
   "__lookupGetter__", "__lookupSetter__", "isPrototypeOf", "propertyIsEnumerable",
   "toString", "valueOf", "__proto__", "toLocaleString"]

/-- Whether `key` is the name of a property inherited from
`Object.prototype`. -/
def isInheritedName (key : String) : Bool := objectPrototypeNames.contains key

/-- What a read finds under a key the object has no own property for: under
`__proto__` the prototype object, under the other names of
`Object.prototype` the function of that name, and `undefined` under any other
key. -/
def inheritedProperty (key : String) : JsVal :=
  if key = "__proto__" then JsVal.obj []
  else if key = "constructor" then JsVal.func "function Object() { [native code] }"
  else if isInheritedName key then JsVal.func ("function " ++ key ++ "() { [native code] }")
  else JsVal.undefined

/-- Property read on a plain object under a computed key, `object[key]`: the
own property if there is one, what the object inherits otherwise. -/
def getProperty (key : String) (object : Fields) : JsVal :=
  if hasField key object then getField key object else inheritedProperty key

/-- Property read `value[key]` under a computed key, on a value that is
neither `undefined` nor `null` (on those the read throws, see
`validateDocument`): an own property first, then what every object inherits
from `Object.prototype`.  The further methods that arrays, strings, functions,
numbers and booleans inherit from their own prototypes are not represented. -/
def property (value : JsVal) (key : String) : JsVal :=
  match value with
  | JsVal.undefined => JsVal.undefined
  | JsVal.null => JsVal.undefined
  | JsVal.obj fields => getProperty key fields
  | other =>
    match member other key with
    | JsVal.undefined => inheritedProperty key
    | own => own

mutual
/-- Whether every number inside a value is one the runtime tells apart from
its neighbours, an integer from -9007199254740991 to 9007199254740991. -/
def representable : JsVal → Bool
  | JsVal.num n => decide (-9007199254740991 ≤ n ∧ n ≤ 9007199254740991)
  | JsVal.arr items => representableItems items
  | JsVal.obj fields => representableFields fields
  | _ => true
/-- The elements of an array are all representable. -/
def representableItems : List JsVal → Bool
  | [] => true
  | x :: xs => representable x && representableItems xs
/-- The values of the fields of an object are all representable. -/
def representableFields : List (String × JsVal) → Bool
  | [] => true
  | (_, v) :: rest => representable v && representableFields rest
end

/-- Property write `target[key] = value`.  Only plain objects carry named
properties in this embedding; on any other target the write is dropped. -/
def setMember (target : JsVal) (key : String) (value : JsVal) : JsVal :=
  match target with
  | JsVal.obj fields => JsVal.obj (setField key value fields)
  | other => other

/-- A value that is neither `undefined` nor an object, array or function:
`null`, a boolean, a number or a string. -/
def isPrimitive : JsVal → Bool
  | JsVal.null => true
  | JsVal.bool _ => true
  | JsVal.num _ => true
  | JsVal.str _ => true
  | _ => false

/-! ## The lodash functions the class calls -/

namespace Lodash

/-- The lodash test `_.isUndefined(value)`. -/
def isUndefined : JsVal → Bool
  | JsVal.undefined => true
  | _ => false

/-- The lodash test `_.isObject(value)`: objects, arrays and functions. -/
def isObject : JsVal → Bool
  | JsVal.obj _ => true
  | JsVal.arr _ => true
  | JsVal.func _ => true
  | _ => false

/-- The lodash test `_.isString(value)`. -/
def isString : JsVal → Bool
  | JsVal.str _ => true
  | _ => false

/-- The lodash test `_.isNumber(value)`. -/
def isNumber : JsVal → Bool
  | JsVal.num _ => true
  | _ => false

/-- The lodash test `_.isFunction(value)`. -/
def isFunction : JsVal → Bool
  | JsVal.func _ => true
  | _ => false

/-- The lodash test `_.isEmpty(object)` on a plain object: no own property. -/
def isEmpty (object : Fields) : Bool := object.isEmpty

/-- The lodash copy `_.clone(object)` of a plain object: a shallow copy, which
for values is the object itself. -/
def clone (object : Fields) : Fields := object

/-- The enumerable properties of a value, as `for ... in` visits them: the
fields of an object, the elements of an array and the characters of a string
under their indexes; a number, boolean, `null`, `undefined` or function has
none. -/
def enumerableProps : JsVal → Fields
  | JsVal.obj fields => fields
  | JsVal.arr items => indexedFrom 0 items
  | JsVal.str s => indexedFrom 0 (charsOf s)
  | _ => []

/-- The call `_.omit(value)` with no property names (`omit` itself is a
reserved word here): a fresh plain object holding every enumerable property of
`value`, none being left out. -/
def omitNoPaths (value : JsVal) : Fields := enumerableProps value

/-- The array lodash makes of an array-like object, `copyArray(object)` after
the test `isArrayLikeObject(object)`: for an object whose `length` is a number
from 0 to 9007199254740991, the values under the indexes below `length`; for
any other object no element. -/
def copyArrayLike (object : Fields) : List JsVal :=
  match getField "length" object with
  | JsVal.num n =>
    if 0 ≤ n ∧ n ≤ 9007199254740991 then
      (List.range n.toNat).map (fun i => getField (toString i) object)
    else []
  | _ => []

/-- The assignment step of a merge, `assignMergeValue(object, key, value)`: a
value other than `undefined` is written; `undefined` is written only where
`key in object` is false, that is where the object has no such property, own
or inherited. -/
def assignMergeValue (object : Fields) (key : String) (value : JsVal) : Fields :=
  match value with
  | JsVal.undefined =>
    if hasField key object || isInheritedName key then object else setField key value object
  | v => setField key v object

mutual
/-- One merged value, `baseMergeDeep`: what `_.merge` stores for a property
whose value in the target is `objValue` and in the source is `srcValue`.  A
source array is merged index by index into the target array (into a copy when
the target value is an array-like object, into a new array when it is
neither), a source object field by field into the target object (into a new
object when the target value is not an object), anything else is taken as it
is.  Where the target value is an array and the
source value an object, lodash writes the fields onto the array; arrays carry
no named properties here and the array is kept as it is. -/
def mergeValue (objValue : JsVal) : JsVal → JsVal
  | JsVal.arr srcItems =>
    match objValue with
    | JsVal.arr objItems => JsVal.arr (mergeItems objItems srcItems)
    | JsVal.obj objFields => JsVal.arr (mergeItems (copyArrayLike objFields) srcItems)
    | _ => JsVal.arr (mergeItems [] srcItems)
  | JsVal.obj srcFields =>
    match objValue with
    | JsVal.obj objFields => JsVal.obj (mergeFields objFields srcFields)
    | JsVal.arr objItems => JsVal.arr objItems
    | _ => JsVal.obj (mergeFields [] srcFields)
  | srcValue => srcValue
/-- The merge of a source array into a target array, index by index: a target
element is kept where the source element merges to `undefined`, and the
result is as long as the longer of the two. -/
def mergeItems (object : List JsVal) : List JsVal → List JsVal
  | [] => object
  | y :: ys =>
    match object with
    | [] => mergeValue JsVal.undefined y :: mergeItems [] ys
    | x :: xs =>
      (match mergeValue x y with
        | JsVal.undefined => x
        | v => v) :: mergeItems xs ys
/-- The merge of a source object into a target object, `baseMerge`: the
properties of the source are visited in order and each is merged into the
target built so far.  The target's value is read as an own property: what
lodash reads under an inherited name is a function (or nothing, under
`__proto__`), which the merge treats like an absent value. -/
def mergeFields (object : Fields) : Fields → Fields
  | [] => object
  | (key, srcValue) :: rest =>
    mergeFields (assignMergeValue object key (mergeValue (getField key object) srcValue)) rest
end

/-- The lodash merge `_.merge(object, source)`: recursively merges the
enumerable properties of `source` into `object` and returns `object`.  A
target that is `undefined` or `null` counts as a new empty object.  A
primitive target (which lodash boxes) and an array target with a source that
is not an array are returned as they are. -/
def merge (object source : JsVal) : JsVal :=
  match object with
  | JsVal.obj objFields => JsVal.obj (mergeFields objFields (enumerableProps source))
  | JsVal.undefined => JsVal.obj (mergeFields [] (enumerableProps source))
  | JsVal.null => JsVal.obj (mergeFields [] (enumerableProps source))
  | JsVal.arr objItems =>
    match source with
    | JsVal.arr srcItems => JsVal.arr (mergeItems objItems srcItems)
    | _ => JsVal.arr objItems
  | other => other

end Lodash

/-! ## `lib/validate-options/index.js` -/

/-- Strict equality of a value with a string literal, `value === 'text'`. -/
def strictEqStr (value : JsVal) (text : String) : Bool :=
  match value with
  | JsVal.str s => s == text
  | _ => false

/-- Message of the first check of `validateOptions`. -/
def optionsError : String := "OpQue requires an options object as its only parameter"

/-- Message of the second check of `validateOptions`. -/
def flushTimeError : String := "OpQue requires a flushTime to be set in the options"

/-- Message of the third check of `validateOptions`. -/
def flushCbError : String := "OpQue requires a flush call back to be set in the options"

/-- Message of the last check of `validateOptions`. -/
def identifierError : String := "OpQue requires an identifier to be set in the options"

/-- Message of `validateOperation`. -/
def operationError : String := "the operation you are trying to queue is not supported"

/-- Message of `validateDocument`. -/
def documentError : String :=
  "the document you are trying to queue does not have the identifier you specified"

/-- The `TypeError` of the runtime for a property read on `undefined` or
`null`. -/
def typeError : String := "TypeError: cannot read a property of undefined or null"

/-- The function `validateOptions(opts)`: the four checks in the order of the
source, the first failing one throwing. -/
def validateOptions (opts : JsVal) : Except String Unit :=
  if !Lodash.isObject opts then
    Except.error optionsError
  else if !Lodash.isString (member opts "flushTime") && !Lodash.isNumber (member opts "flushTime") then
    Except.error flushTimeError
  else if !Lodash.isFunction (member opts "flushCb") then
    Except.error flushCbError
  else if !Lodash.isString (member opts "identifier") then
    Except.error identifierError
  else
    Except.ok ()

/-- The function `validateOperation(operation)`. -/
def validateOperation (operation : JsVal) : Except String Unit :=
  if !strictEqStr operation "CREATE" && !strictEqStr operation "UPDATE"
      && !strictEqStr operation "DELETE" then
    Except.error operationError
  else
    Except.ok ()

/-- The function `validateDocument(doc, identifier)`.  The read
`doc[identifier]` itself throws a `TypeError` when `doc` is `undefined` or
`null`. -/
def validateDocument (doc : JsVal) (identifier : String) : Except String Unit :=
  match doc with
  | JsVal.undefined => Except.error typeError
  | JsVal.null => Except.error typeError
  | _ =>
    if Lodash.isUndefined (property doc identifier) then
      Except.error documentError
    else
      Except.ok ()

/-! ## `lib/index.js` -/

/-- The exported constant `CREATE`. -/
def CREATE : String := "CREATE"

/-- The exported constant `UPDATE`. -/
def UPDATE : String := "UPDATE"

/-- The exported constant `DELETE`. -/
def DELETE : String := "DELETE"

/-- An interval of the host runtime: its handle, its period and the clock
value of its next expiry.  Every interval of an instance runs its `flush`. -/
structure Interval where
  id : Nat
  period : Nat
  due : Nat
  deriving Repr

/-- One call on the logger: the level and the message. -/
structure LogCall where
  level : String
  message : String
  deriving Repr

/-- An instance of the class `OpQue`: the fields `flushTime`, `identifier`,
`queue` and `intervalId` of the source, followed by what the instance does to
its surroundings: the host clock and interval table, the batches handed to
`flushCb` (oldest first) and the calls made on `log` (oldest first). -/
structure OpQue where
  flushTime : JsVal
  identifier : String
  queue : Fields
  intervalId : Nat
  clock : Nat
  nextIntervalId : Nat
  intervals : List Interval
  flushCalls : List Fields
  logCalls : List LogCall
  deriving Repr

/-- What a method call that may throw leaves behind: the message of the error
thrown, if any, and the instance after the call. -/
structure Outcome where
  error : Option String
  state : OpQue

/-- The period the host gives an interval asked for with `delay`: a number
from 1 to 2147483647 is taken as it is and everything else counts as 1.  A
string is read as a number when it is written in decimal digits with an
optional minus sign; the other spellings the host reads as numbers (a plus
sign, blanks around, a fraction, an exponent, a hexadecimal) count as 1
here. -/
def toPeriod (delay : JsVal) : Nat :=
  let n : Int := match delay with
    | JsVal.num n => n
    | JsVal.str s => (s.toInt?).getD 0
    | _ => 0
  if 1 ≤ n ∧ n ≤ 2147483647 then n.toNat else 1

namespace OpQue

/-- A call `this.log.warn(...)` or `this.log.debug(...)`. -/
def log (self : OpQue) (level message : String) : OpQue :=
  { self with logCalls := self.logCalls ++ [{ level := level, message := message }] }

/-- The host call `setInterval(this.flush.bind(this), delay)` with the handle
stored in `this.intervalId`. -/
def setInterval (self : OpQue) (delay : JsVal) : OpQue :=
  { self with
    intervalId := self.nextIntervalId
    nextIntervalId := self.nextIntervalId + 1
    intervals := self.intervals ++
      [{ id := self.nextIntervalId, period := toPeriod delay,
         due := self.clock + toPeriod delay }] }

/-- The host call `clearInterval(handle)`. -/
def clearInterval (self : OpQue) (handle : Nat) : OpQue :=
  { self with intervals := self.intervals.filter (fun t => t.id != handle) }

/-- The method `_resetFlushInterval()`. -/
def _resetFlushInterval (self : OpQue) : OpQue :=
  (self.clearInterval self.intervalId).setInterval self.flushTime

/-- The own property of the queue under the key of the identifier that `doc`
itself carries: the pending record of the document, `undefined` when the queue
holds nothing for it.  Where the queue holds such a property this is what the
source names `currentOperation`; what it reads where the queue holds none is
`queued`. -/
def currentOperation (self : OpQue) (doc : JsVal) : JsVal :=
  getField (toPropertyKey (member doc self.identifier)) self.queue

/-- The expression `this.queue[doc[this.identifier]]`, which the methods bind
to `currentOperation`: the own property of the queue under the key of the
identifier, and what the queue inherits where it has none. -/
def queued (self : OpQue) (doc : JsVal) : JsVal :=
  getProperty (toPropertyKey (property doc self.identifier)) self.queue

/-- The method `_queueDoc(operation, metaData)`. -/
def _queueDoc (self : OpQue) (operation metaData : JsVal) : OpQue :=
  let id := property (member operation "doc") self.identifier
  let operation :=
    if !Lodash.isUndefined metaData then setMember operation "metaData" metaData
    else operation
  { self with queue := setField (toPropertyKey id) operation self.queue }

/-- The method `_queueCreate(doc, metaData)`. -/
def _queueCreate (self : OpQue) (doc metaData : JsVal) : OpQue :=
  let currentOperation := self.queued doc
  let self :=
    if Lodash.isObject currentOperation then
      self.log "warn" "OpQue recieved a create for a document that was already in the queue"
    else self
  let operation := JsVal.obj [("operation", JsVal.str CREATE), ("doc", doc)]
  (self.log "debug" "queueing operation")._queueDoc operation metaData

/-- The method `_queueUpdate(doc, metaData)`.  The write
`this.queue[...].doc = mergeResult` changes the queue where the object read
is an own property of the queue; where it is an inherited one the write lands
on that shared object and the queue stays as it is. -/
def _queueUpdate (self : OpQue) (doc metaData : JsVal) : OpQue :=
  let currentOperation := self.queued doc
  if Lodash.isObject currentOperation then
    if strictEqStr (member currentOperation "operation") DELETE then
      self.log "warn" "OpQueue received an update for a document that is queued to be deleted"
    else
      let mergeResult := Lodash.merge (member currentOperation "doc") doc
      let self := self.log "debug" "merging documents because of an update"
      { self with
        queue :=
          if hasField (toPropertyKey (property doc self.identifier)) self.queue then
            setField (toPropertyKey (property doc self.identifier))
              (setMember currentOperation "doc" mergeResult) self.queue
          else self.queue }
  else
    let operation := JsVal.obj [("operation", JsVal.str UPDATE), ("doc", doc)]
    (self.log "debug" "queuing operation")._queueDoc operation metaData

/-- The method `_queueDelete(doc, metaData)`. -/
def _queueDelete (self : OpQue) (doc metaData : JsVal) : OpQue :=
  let currentOperation := self.queued doc
  if Lodash.isObject currentOperation
      && strictEqStr (member currentOperation "operation") CREATE then
    let self := self.log "debug" "omitting create from queue because of delete"
    { self with queue := Lodash.omitNoPaths (property doc self.identifier) }
  else
    let operation := JsVal.obj [("operation", JsVal.str DELETE), ("doc", doc)]
    (self.log "debug" "queuing operation")._queueDoc operation metaData

/-- The method `queueOperation(operation, document, metaData)`; a call
without `metaData` passes `undefined`. -/
def queueOperation (self : OpQue) (operation document metaData : JsVal) : Outcome :=
  match validateOperation operation with
  | Except.error e => { error := some e, state := self }
  | Except.ok _ =>
    match validateDocument document self.identifier with
    | Except.error e => { error := some e, state := self }
    | Except.ok _ =>
      let self :=
        if strictEqStr operation CREATE then self._queueCreate document metaData
        else if strictEqStr operation UPDATE then self._queueUpdate document metaData
        else if strictEqStr operation DELETE then self._queueDelete document metaData
        else self
      { error := none, state := self._resetFlushInterval }

/-- The method `flush()`: a non-empty queue is handed to `flushCb` as a copy
and replaced by an empty one.  What `flushCb` returns is not represented. -/
def flush (self : OpQue) : OpQue :=
  if !Lodash.isEmpty self.queue then
    let self := self.log "debug" "flushing the queue"
    let queueClone := Lodash.clone self.queue
    { self with queue := [], flushCalls := self.flushCalls ++ [queueClone] }
  else self

/-- The host runs the callback of the interval `handle`, which is `flush`
bound to the instance, and arms the interval again one period after the
current clock value. -/
def expire (self : OpQue) (handle : Nat) : OpQue :=
  let self := self.flush
  { self with
    intervals := self.intervals.map
      (fun t => if t.id == handle then { t with due := self.clock + t.period } else t) }

/-- The host clock moves on by one unit. -/
def advanceClock (self : OpQue) : OpQue :=
  { self with clock := self.clock + 1 }

/-- One unit of host time passes: the clock moves on by one and every
interval that is due expires, in the order of creation. -/
def tick1 (self : OpQue) : OpQue :=
  let self := self.advanceClock
  (self.intervals.filter (fun t => decide (t.due ≤ self.clock))).foldl
    (fun s t => s.expire t.id) self

/-- The host clock advances by `ms` units, one at a time (`clock.tick(ms)` in
`opque.spec.js`). -/
def tick : Nat → OpQue → OpQue
  | 0, self => self
  | ms + 1, self => tick ms self.tick1

/-- The calls `queueOperation(kind, document)` of a list of submissions, one
after the other; the instance a call leaves is the one the next call finds. -/
def submitAll (self : OpQue) : List (String × JsVal) → OpQue
  | [] => self
  | (kind, document) :: rest =>
    submitAll (self.queueOperation (JsVal.str kind) document JsVal.undefined).state rest

/-- Submissions spread over time: before each call `queueOperation(kind,
document)` the host clock advances by the gap given with it. -/
def submitSpaced (self : OpQue) : List (Nat × String × JsVal) → OpQue
  | [] => self
  | (gap, kind, document) :: rest =>
    submitSpaced
      ((self.tick gap).queueOperation (JsVal.str kind) document JsVal.undefined).state rest

end OpQue

/-- What can happen to an instance: a call of `queueOperation`, a call of
`flush`, or host time passing (which makes the intervals that fall due
expire). -/
inductive Action where
  | queueOperation (operation document metaData : JsVal)
  | flush
  | tick (ms : Nat)

/-- The instance after one action; a `queueOperation` that throws leaves the
instance it found. -/
def OpQue.step (self : OpQue) : Action → OpQue
  | Action.queueOperation operation document metaData =>
    (self.queueOperation operation document metaData).state
  | Action.flush => self.flush
  | Action.tick ms => self.tick ms

/-- The instance after a sequence of actions. -/
def OpQue.run (self : OpQue) : List Action → OpQue
  | [] => self
  | action :: rest => OpQue.run (self.step action) rest

/-- The interval of an instance as the constructor and `_resetFlushInterval`
leave it: the only interval is the one of the stored handle, with the period
of `flushTime`, and it falls due one period after the current clock value. -/
def OpQue.armed (self : OpQue) : Prop :=
  self.intervals =
    [{ id := self.intervalId, period := toPeriod self.flushTime,
       due := self.clock + toPeriod self.flushTime }]

/-- The timer-handle invariant: exactly one interval is active, it is the
one the stored handle names, and the stored handle is older than the next
handle the host gives out. -/
def OpQue.oneInterval (self : OpQue) : Prop :=
  (∃ t : Interval, self.intervals = [t] ∧ t.id = self.intervalId) ∧
    self.intervalId < self.nextIntervalId

/-- The batch expected from submissions with distinct keys: for each
submission of a kind and the fields of a document, in order, the record of
that kind and document under the property key of the document's identifier. -/
def batchOf (identifier : String) (submissions : List (String × Fields)) : Fields :=
  submissions.map (fun s =>
    (toPropertyKey (getField identifier s.2),
      JsVal.obj [("operation", JsVal.str s.1), ("doc", JsVal.obj s.2)]))

/-- The constructor `new OpQue(opts)` at host clock `clock` with `nextId` the
next free interval handle: it throws what `validateOptions` throws, and
otherwise gives an instance with an empty queue and a running interval.  The
creation of the logger is not represented. -/
def construct (opts : JsVal) (clock nextId : Nat) : Except String OpQue :=
  match validateOptions opts with
  | Except.error e => Except.error e
  | Except.ok _ =>
    let self : OpQue :=
      { flushTime := member opts "flushTime"
        identifier := toPropertyKey (member opts "identifier")
        queue := []
        intervalId := 0
        clock := clock
        nextIntervalId := nextId
        intervals := []
        flushCalls := []
        logCalls := [] }
    Except.ok (self.setInterval self.flushTime)

/-- The fixture `getOpque()` of `opque.spec.js`: the instance the constructor
gives for `flushTime: 1000` and `identifier: '_id'` at clock 0 on a host with
no interval yet. -/
def getOpque : OpQue :=
  { flushTime := JsVal.num 1000
    identifier := "_id"
    queue := []
    intervalId := 0
    clock := 0
    nextIntervalId := 1
    intervals := [{ id := 0, period := 1000, due := 1000 }]
    flushCalls := []
    logCalls := [] }

/-! ## The deep merge of two documents, stated on its own

The merge that an UPDATE is specified to make of the stored document with the
incoming one, written down without lodash, for `Lodash.merge` to be compared
with. -/

mutual
/-- Whether a value is plain data: `null`, a boolean, a number, a string, an
array of plain data, or an object whose field names are distinct and whose
field values are plain data.  In particular no field is `undefined`. -/
def isData : JsVal → Bool
  | JsVal.null => true
  | JsVal.bool _ => true
  | JsVal.num _ => true
  | JsVal.str _ => true
  | JsVal.arr items => isDataItems items
  | JsVal.obj fields => isDataFields fields
  | _ => false
/-- Every element of an array is plain data. -/
def isDataItems : List JsVal → Bool
  | [] => true
  | x :: xs => isData x && isDataItems xs
/-- The field names of an object are distinct and its field values are plain
data. -/
def isDataFields : List (String × JsVal) → Bool
  | [] => true
  | (k, v) :: rest => !hasField k rest && isData v && isDataFields rest
end

mutual
/-- Whether the incoming value nowhere holds an array where the stored value
holds an object, or an object where the stored value holds an array, at the
places the two values share: the same field of objects met on the way, the
same index of arrays met on the way. -/
def sameShape (stored : JsVal) : JsVal → Bool
  | JsVal.arr ys =>
    match stored with
    | JsVal.arr xs => sameShapeItems xs ys
    | JsVal.obj _ => false
    | _ => true
  | JsVal.obj b =>
    match stored with
    | JsVal.obj a => sameShapeFields a b
    | JsVal.arr _ => false
    | _ => true
  | _ => true
/-- The elements of the incoming array agree in shape with the stored elements
at the same indexes. -/
def sameShapeItems (stored : List JsVal) : List JsVal → Bool
  | [] => true
  | y :: ys =>
    match stored with
    | [] => true
    | x :: xs => sameShape x y && sameShapeItems xs ys
/-- The fields of the incoming object agree in shape with the stored fields of
the same names. -/
def sameShapeFields (stored : Fields) : List (String × JsVal) → Bool
  | [] => true
  | (k, v) :: rest => sameShape (getField k stored) v && sameShapeFields stored rest
end

mutual
/-- The deep merge of a stored value with an incoming one, the incoming one
taking precedence.  Two objects merge field by field: a field of the stored
object that the incoming one does not mention is kept, a field both have
holds the deep merge of the two values, and the fields only the incoming
object has follow, in its order.  Two arrays merge index by index.  In every
other case the result is the incoming value. -/
def Spec.deepMerge : JsVal → JsVal → JsVal
  | JsVal.obj a, JsVal.obj b =>
    JsVal.obj (Spec.deepMergeFields a b ++ b.filter (fun e => !hasField e.1 a))
  | JsVal.arr xs, JsVal.arr ys => JsVal.arr (Spec.deepMergeItems xs ys)
  | _, incoming => incoming
/-- The fields of the stored object after the deep merge with the incoming
object `b`, in their stored order. -/
def Spec.deepMergeFields : List (String × JsVal) → Fields → Fields
  | [], _ => []
  | (k, v) :: rest, b =>
    (k, if hasField k b then Spec.deepMerge v (getField k b) else v)
      :: Spec.deepMergeFields rest b
/-- The deep merge of two arrays: the elements at the same index are merged
and the elements of the longer array beyond the shorter one are kept. -/
def Spec.deepMergeItems : List JsVal → List JsVal → List JsVal
  | [], ys => ys
  | x :: xs, [] => x :: xs
  | x :: xs, y :: ys => Spec.deepMerge x y :: Spec.deepMergeItems xs ys
end

/-! ## Properties of objects and of the merge -/

open JsVal

/-- The fixture is what the constructor builds from the options of
`getOpque()` in `opque.spec.js`. -/
theorem construct_getOpque :
    construct (obj [("flushTime", num 1000), ("flushCb", func "function () {}"),
      ("identifier", str "_id")]) 0 0 = Except.ok getOpque := rfl

theorem getField_setField_same (key : String) (value : JsVal) (fields : Fields) :
    getField key (setField key value fields) = value := by
  induction fields with
  | nil => simp [setField, getField]
  | cons p rest ih =>
    obtain ⟨k, v⟩ := p
    by_cases h : k = key
    · simp [setField, getField, h]
    · simp [setField, getField, h, ih]

theorem getField_setField_other (key other : String) (value : JsVal) (fields : Fields)
    (h : other ≠ key) : getField other (setField key value fields) = getField other fields := by
  induction fields with
  | nil => simp [setField, getField, Ne.symm h]
  | cons p rest ih =>
    obtain ⟨k, v⟩ := p
    by_cases hk : k = key
    · subst hk
      simp [setField, getField, Ne.symm h]
    · by_cases ho : k = other
      · subst ho
        simp [setField, getField, hk]
      · simp [setField, getField, hk, ho, ih]

theorem hasField_false_getField {key : String} {fields : Fields}
    (h : hasField key fields = false) : getField key fields = undefined := by
  induction fields with
  | nil => rfl
  | cons p rest ih =>
    obtain ⟨k, v⟩ := p
    by_cases hk : k = key
    · simp [hasField, hk] at h
    · simp [hasField, hk] at h
      simp [getField, hk, ih h]

theorem hasField_eq_mem (key : String) (fields : Fields) :
    hasField key fields = true ↔ key ∈ keysOf fields := by
  induction fields with
  | nil => simp [hasField, keysOf]
  | cons p rest ih =>
    obtain ⟨k, v⟩ := p
    by_cases hk : k = key
    · simp [hasField, keysOf, hk]
    · have : ¬ key = k := fun e => hk e.symm
      simp [hasField, hk, this, keysOf] at ih ⊢
      exact ih

theorem setField_absent (key : String) (value : JsVal) (fields : Fields)
    (h : hasField key fields = false) : setField key value fields = fields ++ [(key, value)] := by
  induction fields with
  | nil => rfl
  | cons p rest ih =>
    obtain ⟨k, v⟩ := p
    by_cases hk : k = key
    · simp [hasField, hk] at h
    · simp [hasField, hk] at h
      simp [setField, hk, ih h]

theorem getField_assignMergeValue_other (key other : String) (value : JsVal) (object : Fields)
    (h : other ≠ key) :
    getField other (Lodash.assignMergeValue object key value) = getField other object := by
  unfold Lodash.assignMergeValue
  split
  · split
    · rfl
    · exact getField_setField_other key other _ object h
  · exact getField_setField_other key other _ object h

theorem getField_assignMergeValue_same (key : String) (value : JsVal) (object : Fields)
    (h : value ≠ undefined) :
    getField key (Lodash.assignMergeValue object key value) = value := by
  unfold Lodash.assignMergeValue
  split
  · exact absurd rfl h
  · exact getField_setField_same key _ object

theorem mergeFields_nil (object : Fields) : Lodash.mergeFields object [] = object := by
  simp [Lodash.mergeFields]

theorem mergeFields_cons (object : Fields) (key : String) (srcValue : JsVal) (rest : Fields) :
    Lodash.mergeFields object ((key, srcValue) :: rest) =
      Lodash.mergeFields
        (Lodash.assignMergeValue object key (Lodash.mergeValue (getField key object) srcValue))
        rest := by
  simp [Lodash.mergeFields]

theorem getField_mergeFields_absent (name : String) (source object : Fields)
    (h : name ∉ keysOf source) :
    getField name (Lodash.mergeFields object source) = getField name object := by
  induction source generalizing object with
  | nil => rw [mergeFields_nil]
  | cons p rest ih =>
    obtain ⟨k, v⟩ := p
    simp [keysOf] at h
    rw [mergeFields_cons, ih _ (by simpa [keysOf] using h.2)]
    exact getField_assignMergeValue_other k name _ object h.1

theorem mergeValue_primitive (objValue value : JsVal) (h : isPrimitive value = true) :
    Lodash.mergeValue objValue value = value := by
  cases value <;> simp [isPrimitive] at h <;> simp [Lodash.mergeValue]

theorem getField_mergeFields_primitive (name : String) (value : JsVal) (source object : Fields)
    (hnodup : (keysOf source).Nodup) (hget : getField name source = value)
    (hprim : isPrimitive value = true) :
    getField name (Lodash.mergeFields object source) = value := by
  induction source generalizing object with
  | nil => subst hget; simp [getField, isPrimitive] at hprim
  | cons p rest ih =>
    obtain ⟨k, v⟩ := p
    simp [keysOf] at hnodup
    rw [mergeFields_cons]
    by_cases hk : k = name
    · subst hk
      simp [getField] at hget
      subst hget
      rw [getField_mergeFields_absent k rest _ (by simpa [keysOf] using hnodup.1),
        mergeValue_primitive _ _ hprim]
      apply getField_assignMergeValue_same
      intro e; rw [e] at hprim; simp [isPrimitive] at hprim
    · simp [getField, hk] at hget
      exact ih _ (by simpa [keysOf] using hnodup.2) hget

/-! ## The methods, path by path -/

theorem isUndefined_eq_false {value : JsVal} (h : value ≠ undefined) :
    Lodash.isUndefined value = false := by
  cases value <;> simp_all [Lodash.isUndefined]

theorem isUndefined_eq_true {value : JsVal} (h : Lodash.isUndefined value = true) :
    value = undefined := by
  cases value <;> simp_all [Lodash.isUndefined]

theorem hasField_of_getField_ne {key : String} {fields : Fields}
    (h : getField key fields ≠ undefined) : hasField key fields = true := by
  cases hf : hasField key fields
  · exact absurd (hasField_false_getField hf) h
  · rfl

theorem getProperty_of_ne {key : String} {fields : Fields}
    (h : getField key fields ≠ undefined) : getProperty key fields = getField key fields := by
  simp [getProperty, hasField_of_getField_ne h]

/-- A document that itself carries the identifier is read the same way under
the computed key. -/
theorem property_obj (fields : Fields) (identifier : String)
    (hid : getField identifier fields ≠ undefined) :
    property (obj fields) identifier = getField identifier fields := by
  simp only [property]
  exact getProperty_of_ne hid

theorem member_inheritedProperty (key name : String) :
    member (inheritedProperty key) name = undefined := by
  unfold inheritedProperty
  split
  · rfl
  · split
    · rfl
    · split <;> rfl

theorem validateDocument_obj (fields : Fields) (identifier : String)
    (hid : getField identifier fields ≠ undefined) :
    validateDocument (obj fields) identifier = Except.ok () := by
  simp [validateDocument, property_obj fields identifier hid, isUndefined_eq_false hid]

theorem queueOperation_create (self : OpQue) (document metaData : JsVal)
    (hdoc : validateDocument document self.identifier = Except.ok ()) :
    self.queueOperation (str CREATE) document metaData =
      { error := none, state := (self._queueCreate document metaData)._resetFlushInterval } := by
  simp [OpQue.queueOperation, validateOperation, hdoc, strictEqStr, CREATE, UPDATE, DELETE]

theorem queueOperation_update (self : OpQue) (document metaData : JsVal)
    (hdoc : validateDocument document self.identifier = Except.ok ()) :
    self.queueOperation (str UPDATE) document metaData =
      { error := none, state := (self._queueUpdate document metaData)._resetFlushInterval } := by
  simp [OpQue.queueOperation, validateOperation, hdoc, strictEqStr, CREATE, UPDATE, DELETE]

theorem queueOperation_delete (self : OpQue) (document metaData : JsVal)
    (hdoc : validateDocument document self.identifier = Except.ok ()) :
    self.queueOperation (str DELETE) document metaData =
      { error := none, state := (self._queueDelete document metaData)._resetFlushInterval } := by
  simp [OpQue.queueOperation, validateOperation, hdoc, strictEqStr, CREATE, UPDATE, DELETE]

@[simp]
theorem log_queue (self : OpQue) (level message : String) :
    (self.log level message).queue = self.queue := rfl

@[simp]
theorem log_identifier (self : OpQue) (level message : String) :
    (self.log level message).identifier = self.identifier := rfl

@[simp]
theorem resetFlushInterval_queue (self : OpQue) :
    self._resetFlushInterval.queue = self.queue := rfl

@[simp]
theorem resetFlushInterval_identifier (self : OpQue) :
    self._resetFlushInterval.identifier = self.identifier := rfl

@[simp]
theorem queueDoc_identifier (self : OpQue) (operation metaData : JsVal) :
    (self._queueDoc operation metaData).identifier = self.identifier := rfl

/-! ### The paths for any document, by what the queue is read to hold -/

theorem queueDoc_stores (self : OpQue) (kind : String) (doc metaData : JsVal) :
    (self._queueDoc (obj [("operation", str kind), ("doc", doc)]) metaData).queue =
      setField (toPropertyKey (property doc self.identifier))
        (if Lodash.isUndefined metaData then obj [("operation", str kind), ("doc", doc)]
          else obj [("operation", str kind), ("doc", doc), ("metaData", metaData)])
        self.queue := by
  cases h : Lodash.isUndefined metaData <;>
    simp [OpQue._queueDoc, member, getField, setMember, setField, h]

theorem queueCreate_stores (self : OpQue) (doc metaData : JsVal) :
    (self._queueCreate doc metaData).queue =
      setField (toPropertyKey (property doc self.identifier))
        (if Lodash.isUndefined metaData then obj [("operation", str CREATE), ("doc", doc)]
          else obj [("operation", str CREATE), ("doc", doc), ("metaData", metaData)])
        self.queue := by
  unfold OpQue._queueCreate
  simp only []
  split <;> rw [queueDoc_stores] <;> simp

theorem queueUpdate_stores (self : OpQue) (doc metaData : JsVal)
    (hcur : Lodash.isObject (self.queued doc) = false) :
    (self._queueUpdate doc metaData).queue =
      setField (toPropertyKey (property doc self.identifier))
        (if Lodash.isUndefined metaData then obj [("operation", str UPDATE), ("doc", doc)]
          else obj [("operation", str UPDATE), ("doc", doc), ("metaData", metaData)])
        self.queue := by
  unfold OpQue._queueUpdate
  simp only [hcur]
  rw [if_neg (by simp), queueDoc_stores]
  simp

theorem queueUpdate_warns (self : OpQue) (doc metaData : JsVal)
    (hcur : Lodash.isObject (self.queued doc) = true)
    (hdel : strictEqStr (member (self.queued doc) "operation") DELETE = true) :
    (self._queueUpdate doc metaData).queue = self.queue := by
  unfold OpQue._queueUpdate
  simp [hcur, hdel]

theorem queueUpdate_merges (self : OpQue) (doc metaData : JsVal)
    (hcur : Lodash.isObject (self.queued doc) = true)
    (hdel : strictEqStr (member (self.queued doc) "operation") DELETE = false) :
    (self._queueUpdate doc metaData).queue =
      (if hasField (toPropertyKey (property doc self.identifier)) self.queue then
        setField (toPropertyKey (property doc self.identifier))
          (setMember (self.queued doc) "doc"
            (Lodash.merge (member (self.queued doc) "doc") doc))
          self.queue
       else self.queue) := by
  unfold OpQue._queueUpdate
  simp [hcur, hdel]

theorem queueDelete_omits (self : OpQue) (doc metaData : JsVal)
    (hcur : Lodash.isObject (self.queued doc) = true)
    (hcre : strictEqStr (member (self.queued doc) "operation") CREATE = true) :
    (self._queueDelete doc metaData).queue
      = Lodash.omitNoPaths (property doc self.identifier) := by
  unfold OpQue._queueDelete
  simp [hcur, hcre]

theorem queueDelete_stores (self : OpQue) (doc metaData : JsVal)
    (hcur : (Lodash.isObject (self.queued doc)
      && strictEqStr (member (self.queued doc) "operation") CREATE) = false) :
    (self._queueDelete doc metaData).queue =
      setField (toPropertyKey (property doc self.identifier))
        (if Lodash.isUndefined metaData then obj [("operation", str DELETE), ("doc", doc)]
          else obj [("operation", str DELETE), ("doc", doc), ("metaData", metaData)])
        self.queue := by
  unfold OpQue._queueDelete
  simp only [hcur]
  rw [if_neg (by simp), queueDoc_stores]
  simp

theorem queueUpdate_identifier (self : OpQue) (doc metaData : JsVal) :
    (self._queueUpdate doc metaData).identifier = self.identifier := by
  unfold OpQue._queueUpdate
  simp only []
  split
  · split <;> rfl
  · rfl

theorem queueCreate_identifier (self : OpQue) (doc metaData : JsVal) :
    (self._queueCreate doc metaData).identifier = self.identifier := by
  unfold OpQue._queueCreate
  simp only []
  split <;> rfl

theorem queueDelete_identifier (self : OpQue) (doc metaData : JsVal) :
    (self._queueDelete doc metaData).identifier = self.identifier := by
  unfold OpQue._queueDelete
  simp only []
  split <;> rfl

/-! ### The paths for a document that carries the identifier, by the pending
record of the document -/

/-- Where the queue has an own property for the document, that property is
what the methods read. -/
theorem queued_of_own (self : OpQue) (fields : Fields)
    (hid : getField self.identifier fields ≠ undefined)
    (hown : hasField (toPropertyKey (getField self.identifier fields)) self.queue = true) :
    self.queued (obj fields) = self.currentOperation (obj fields) := by
  simp [OpQue.queued, OpQue.currentOperation, property_obj fields _ hid, member, getProperty,
    hown]

/-- Where the queue has no own property for the document, the methods read
what the queue inherits under the key. -/
theorem queued_of_absent (self : OpQue) (fields : Fields)
    (hid : getField self.identifier fields ≠ undefined)
    (habsent : hasField (toPropertyKey (getField self.identifier fields)) self.queue = false) :
    self.queued (obj fields) = inheritedProperty (toPropertyKey (getField self.identifier fields))
      := by
  simp [OpQue.queued, property_obj fields _ hid, getProperty, habsent]

theorem hasField_of_isObject_currentOperation (self : OpQue) (fields : Fields)
    (hobj : Lodash.isObject (self.currentOperation (obj fields)) = true) :
    hasField (toPropertyKey (getField self.identifier fields)) self.queue = true := by
  apply hasField_of_getField_ne
  intro e
  simp only [OpQue.currentOperation, member] at hobj
  rw [e] at hobj
  exact Bool.noConfusion hobj

theorem queued_of_isObject (self : OpQue) (fields : Fields)
    (hid : getField self.identifier fields ≠ undefined)
    (hobj : Lodash.isObject (self.currentOperation (obj fields)) = true) :
    self.queued (obj fields) = self.currentOperation (obj fields) :=
  queued_of_own self fields hid (hasField_of_isObject_currentOperation self fields hobj)

/-- Whatever the queue holds for the document, the methods read under
`operation` what the pending record of the document has there. -/
theorem operation_of_queued (self : OpQue) (fields : Fields)
    (hid : getField self.identifier fields ≠ undefined) :
    member (self.queued (obj fields)) "operation"
      = member (self.currentOperation (obj fields)) "operation" := by
  cases hown : hasField (toPropertyKey (getField self.identifier fields)) self.queue
  · rw [queued_of_absent self fields hid hown, member_inheritedProperty]
    simp only [OpQue.currentOperation, member]
    rw [hasField_false_getField hown]
  · rw [queued_of_own self fields hid hown]

theorem queueCreate_queue (self : OpQue) (fields : Fields) (metaData : JsVal)
    (hid : getField self.identifier fields ≠ undefined) :
    (self._queueCreate (obj fields) metaData).queue =
      setField (toPropertyKey (getField self.identifier fields))
        (if Lodash.isUndefined metaData then obj [("operation", str CREATE), ("doc", obj fields)]
          else obj [("operation", str CREATE), ("doc", obj fields), ("metaData", metaData)])
        self.queue := by
  rw [queueCreate_stores, property_obj fields _ hid]

/-- An UPDATE of a document with no pending record stores the UPDATE record,
provided the queue does not inherit an object under the key. -/
theorem queueUpdate_queue_none (self : OpQue) (fields : Fields) (metaData : JsVal)
    (hid : getField self.identifier fields ≠ undefined)
    (hcur : Lodash.isObject (self.currentOperation (obj fields)) = false)
    (hname : hasField (toPropertyKey (getField self.identifier fields)) self.queue = true ∨
      isInheritedName (toPropertyKey (getField self.identifier fields)) = false) :
    (self._queueUpdate (obj fields) metaData).queue =
      setField (toPropertyKey (getField self.identifier fields))
        (if Lodash.isUndefined metaData then obj [("operation", str UPDATE), ("doc", obj fields)]
          else obj [("operation", str UPDATE), ("doc", obj fields), ("metaData", metaData)])
        self.queue := by
  have hq : Lodash.isObject (self.queued (obj fields)) = false := by
    cases hown : hasField (toPropertyKey (getField self.identifier fields)) self.queue
    · rw [queued_of_absent self fields hid hown]
      rcases hname with h | h
      · rw [hown] at h; exact Bool.noConfusion h
      · unfold inheritedProperty
        have h1 : toPropertyKey (getField self.identifier fields) ≠ "__proto__" := by
          intro e; rw [e] at h; revert h; decide
        have h2 : toPropertyKey (getField self.identifier fields) ≠ "constructor" := by
          intro e; rw [e] at h; revert h; decide
        simp [h1, h2, h, Lodash.isObject]
    · rw [queued_of_own self fields hid hown]; exact hcur
  rw [queueUpdate_stores self _ metaData hq, property_obj fields _ hid]

/-- An UPDATE of a document with no own property in the queue, under a key
the queue inherits an object for, leaves the queue as it is. -/
theorem queueUpdate_queue_inherited (self : OpQue) (fields : Fields) (metaData : JsVal)
    (hid : getField self.identifier fields ≠ undefined)
    (habsent : hasField (toPropertyKey (getField self.identifier fields)) self.queue = false)
    (hname : isInheritedName (toPropertyKey (getField self.identifier fields)) = true) :
    (self._queueUpdate (obj fields) metaData).queue = self.queue := by
  have hq := queued_of_absent self fields hid habsent
  have hobj : Lodash.isObject (self.queued (obj fields)) = true := by
    rw [hq]
    unfold inheritedProperty
    rw [if_pos hname]
    split
    · rfl
    · split <;> rfl
  have hdel : strictEqStr (member (self.queued (obj fields)) "operation") DELETE = false := by
    rw [hq, member_inheritedProperty]; rfl
  rw [queueUpdate_merges self _ metaData hobj hdel, property_obj fields _ hid, habsent]
  rfl

theorem queueUpdate_queue_deleted (self : OpQue) (fields : Fields) (metaData : JsVal)
    (hid : getField self.identifier fields ≠ undefined)
    (hcur : Lodash.isObject (self.currentOperation (obj fields)) = true)
    (hdel : strictEqStr (member (self.currentOperation (obj fields)) "operation") DELETE = true) :
    (self._queueUpdate (obj fields) metaData).queue = self.queue := by
  have hq := queued_of_isObject self fields hid hcur
  exact queueUpdate_warns self _ metaData (by rw [hq]; exact hcur) (by rw [hq]; exact hdel)

theorem queueUpdate_queue_merge (self : OpQue) (fields : Fields) (metaData : JsVal)
    (hid : getField self.identifier fields ≠ undefined)
    (hcur : Lodash.isObject (self.currentOperation (obj fields)) = true)
    (hdel : strictEqStr (member (self.currentOperation (obj fields)) "operation") DELETE
      = false) :
    (self._queueUpdate (obj fields) metaData).queue =
      setField (toPropertyKey (getField self.identifier fields))
        (setMember (self.currentOperation (obj fields)) "doc"
          (Lodash.merge (member (self.currentOperation (obj fields)) "doc") (obj fields)))
        self.queue := by
  have hq := queued_of_isObject self fields hid hcur
  rw [queueUpdate_merges self _ metaData (by rw [hq]; exact hcur) (by rw [hq]; exact hdel),
    property_obj fields _ hid, hq,
    if_pos (hasField_of_isObject_currentOperation self fields hcur)]

theorem queueDelete_queue_created (self : OpQue) (fields : Fields) (metaData : JsVal)
    (hid : getField self.identifier fields ≠ undefined)
    (hcur : Lodash.isObject (self.currentOperation (obj fields)) = true)
    (hcre : strictEqStr (member (self.currentOperation (obj fields)) "operation") CREATE
      = true) :
    (self._queueDelete (obj fields) metaData).queue
      = Lodash.omitNoPaths (getField self.identifier fields) := by
  have hq := queued_of_isObject self fields hid hcur
  rw [queueDelete_omits self _ metaData (by rw [hq]; exact hcur) (by rw [hq]; exact hcre),
    property_obj fields _ hid]

theorem queueDelete_queue_other (self : OpQue) (fields : Fields) (metaData : JsVal)
    (hid : getField self.identifier fields ≠ undefined)
    (hcur : (Lodash.isObject (self.currentOperation (obj fields))
      && strictEqStr (member (self.currentOperation (obj fields)) "operation") CREATE) = false) :
    (self._queueDelete (obj fields) metaData).queue =
      setField (toPropertyKey (getField self.identifier fields))
        (if Lodash.isUndefined metaData then obj [("operation", str DELETE), ("doc", obj fields)]
          else obj [("operation", str DELETE), ("doc", obj fields), ("metaData", metaData)])
        self.queue := by
  have hq : (Lodash.isObject (self.queued (obj fields))
      && strictEqStr (member (self.queued (obj fields)) "operation") CREATE) = false := by
    rw [operation_of_queued self fields hid]
    cases hown : hasField (toPropertyKey (getField self.identifier fields)) self.queue
    · have hundef : self.currentOperation (obj fields) = undefined := by
        simp only [OpQue.currentOperation, member]
        exact hasField_false_getField hown
      rw [hundef]
      simp [member, strictEqStr]
    · rw [queued_of_own self fields hid hown]; exact hcur
  rw [queueDelete_stores self _ metaData hq, property_obj fields _ hid]

theorem hasField_setField_other (key other : String) (value : JsVal) (fields : Fields)
    (h : other ≠ key) : hasField other (setField key value fields) = hasField other fields := by
  induction fields with
  | nil => simp [setField, hasField, Ne.symm h]
  | cons p rest ih =>
    obtain ⟨k, v⟩ := p
    by_cases hk : k = key
    · subst hk
      simp [setField, hasField, Ne.symm h]
    · by_cases ho : k = other
      · subst ho
        simp [setField, hasField, hk]
      · simp [setField, hasField, hk, ho, ih]

theorem isObject_getField_indexedFrom (key : String) (items : List JsVal) (start : Nat)
    (h : ∀ x ∈ items, Lodash.isObject x = false) :
    Lodash.isObject (getField key (indexedFrom start items)) = false := by
  induction items generalizing start with
  | nil => rfl
  | cons x xs ih =>
    simp only [indexedFrom, getField]
    split
    · exact h x (List.mem_cons_self x xs)
    · exact ih (start + 1) (fun y hy => h y (List.mem_cons_of_mem x hy))

theorem isObject_getField_omitNoPaths (key : String) (value : JsVal)
    (h : isPrimitive value = true) :
    Lodash.isObject (getField key (Lodash.omitNoPaths value)) = false := by
  cases value <;> simp [isPrimitive] at h <;>
    simp only [Lodash.omitNoPaths, Lodash.enumerableProps, getField, Lodash.isObject]
  apply isObject_getField_indexedFrom
  intro x hx
  simp only [charsOf, List.mem_map] at hx
  obtain ⟨c, _, rfl⟩ := hx
  rfl

theorem primitive_ne_undefined {value : JsVal} (h : isPrimitive value = true) :
    value ≠ undefined := by
  intro e; rw [e] at h; simp [isPrimitive] at h

/-- What a CREATE leaves under the identifier of its document. -/
theorem currentOperation_after_create (self : OpQue) (fields : Fields) (metaData : JsVal)
    (hid : getField self.identifier fields ≠ undefined) :
    (self._queueCreate (obj fields) metaData)._resetFlushInterval.currentOperation (obj fields) =
      (if Lodash.isUndefined metaData then obj [("operation", str CREATE), ("doc", obj fields)]
        else obj [("operation", str CREATE), ("doc", obj fields), ("metaData", metaData)]) := by
  simp only [OpQue.currentOperation, resetFlushInterval_queue, resetFlushInterval_identifier,
    queueCreate_identifier, member]
  rw [queueCreate_queue self fields metaData hid, getField_setField_same]

/-! ## The merge of lodash against the deep merge

On plain data, and where the incoming document holds no array in the place of
an object or the other way round, `Lodash.merge` computes `Spec.deepMerge`. -/

theorem mergeValue_ne_undefined (x y : JsVal) (h : y ≠ undefined) :
    Lodash.mergeValue x y ≠ undefined := by
  cases y with
  | undefined => exact absurd rfl h
  | arr ys => cases x <;> simp [Lodash.mergeValue]
  | obj b => cases x <;> simp [Lodash.mergeValue]
  | null => simp [Lodash.mergeValue]
  | bool b => simp [Lodash.mergeValue]
  | num n => simp [Lodash.mergeValue]
  | str s => simp [Lodash.mergeValue]
  | func f => simp [Lodash.mergeValue]

theorem assignMergeValue_of_ne (object : Fields) (key : String) (value : JsVal)
    (h : value ≠ undefined) :
    Lodash.assignMergeValue object key value = setField key value object := by
  cases value <;> first | exact absurd rfl h | rfl

theorem isData_ne_undefined {value : JsVal} (h : isData value = true) : value ≠ undefined := by
  intro e; rw [e] at h; simp [isData] at h

theorem isDataFields_cons (k : String) (v : JsVal) (rest : Fields) :
    isDataFields ((k, v) :: rest) = true ↔
      hasField k rest = false ∧ isData v = true ∧ isDataFields rest = true := by
  simp [isDataFields, and_assoc]

theorem isDataItems_cons (x : JsVal) (xs : List JsVal) :
    isDataItems (x :: xs) = true ↔ isData x = true ∧ isDataItems xs = true := by
  simp [isDataItems]

theorem hasField_false_iff (key : String) (fields : Fields) :
    hasField key fields = false ↔ key ∉ keysOf fields := by
  rw [← hasField_eq_mem]; simp

theorem isDataFields_nodup (a : Fields) (h : isDataFields a = true) : (keysOf a).Nodup := by
  induction a with
  | nil => simp [keysOf]
  | cons p rest ih =>
    obtain ⟨k, v⟩ := p
    rw [isDataFields_cons] at h
    simp only [keysOf, List.map_cons, List.nodup_cons]
    exact ⟨(hasField_false_iff k rest).1 h.1, ih h.2.2⟩

theorem isDataFields_getField (key : String) (a : Fields) (h : isDataFields a = true) :
    getField key a = undefined ∨ isData (getField key a) = true := by
  induction a with
  | nil => exact Or.inl rfl
  | cons p rest ih =>
    obtain ⟨k, v⟩ := p
    rw [isDataFields_cons] at h
    by_cases hk : k = key
    · simp [getField, hk, h.2.1]
    · simp only [getField, if_neg hk]
      exact ih h.2.2

theorem keysOf_setField_of_mem (key : String) (value : JsVal) (a : Fields)
    (h : hasField key a = true) : keysOf (setField key value a) = keysOf a := by
  induction a with
  | nil => simp [hasField] at h
  | cons p rest ih =>
    obtain ⟨k, v⟩ := p
    by_cases hk : k = key
    · simp [setField, hk, keysOf]
    · simp [hasField, hk] at h
      have := ih h
      simp [setField, hk, keysOf] at this ⊢
      exact this

theorem nodup_setField (key : String) (value : JsVal) (a : Fields) (h : (keysOf a).Nodup) :
    (keysOf (setField key value a)).Nodup := by
  cases hk : hasField key a
  · rw [setField_absent key value a hk]
    simp only [keysOf, List.map_append, List.map_cons, List.map_nil]
    rw [List.nodup_append]
    refine ⟨h, by simp, ?_⟩
    intro x hx hx2
    simp only [List.mem_singleton] at hx2
    subst hx2
    exact (hasField_false_iff _ a).1 hk hx
  · rw [keysOf_setField_of_mem key value a hk]; exact h

theorem deepMergeFields_cons_absent (a : Fields) (k : String) (v : JsVal) (rest : Fields)
    (h : hasField k a = false) :
    Spec.deepMergeFields a ((k, v) :: rest) = Spec.deepMergeFields a rest := by
  induction a with
  | nil => simp [Spec.deepMergeFields]
  | cons p a0 ih =>
    obtain ⟨k0, v0⟩ := p
    by_cases hk : k0 = k
    · simp [hasField, hk] at h
    · simp [hasField, hk] at h
      have hk2 : ¬ k = k0 := fun e => hk e.symm
      simp [Spec.deepMergeFields, hasField, getField, hk2, ih h]

theorem deepMergeFields_append (a c b : Fields) :
    Spec.deepMergeFields (a ++ c) b = Spec.deepMergeFields a b ++ Spec.deepMergeFields c b := by
  induction a with
  | nil => simp [Spec.deepMergeFields]
  | cons p a0 ih =>
    obtain ⟨k0, v0⟩ := p
    simp [Spec.deepMergeFields, ih]

theorem deepMergeFields_setField (a : Fields) (k : String) (v : JsVal) (rest : Fields)
    (hnodup : (keysOf a).Nodup) (hmem : hasField k a = true) (hrest : hasField k rest = false) :
    Spec.deepMergeFields (setField k (Spec.deepMerge (getField k a) v) a) rest
      = Spec.deepMergeFields a ((k, v) :: rest) := by
  induction a with
  | nil => simp [hasField] at hmem
  | cons p a0 ih =>
    obtain ⟨k0, v0⟩ := p
    simp only [keysOf, List.map_cons, List.nodup_cons] at hnodup
    by_cases hk : k0 = k
    · subst hk
      have h0 : hasField k0 a0 = false := (hasField_false_iff _ _).2 hnodup.1
      simp [setField, Spec.deepMergeFields, hasField, getField, hrest,
        deepMergeFields_cons_absent a0 k0 v rest h0]
    · have hk2 : ¬ k = k0 := fun e => hk e.symm
      simp [hasField, hk] at hmem
      simp [setField, Spec.deepMergeFields, hasField, getField, hk, hk2]
      exact ih hnodup.2 hmem

theorem filter_absent_setField (a rest : Fields) (k : String) (w : JsVal)
    (hrest : hasField k rest = false) :
    rest.filter (fun e => !hasField e.1 (setField k w a))
      = rest.filter (fun e => !hasField e.1 a) := by
  apply List.filter_congr
  intro e he
  have hne : e.1 ≠ k := by
    intro h
    have : k ∈ keysOf rest := by
      rw [← h]; exact List.mem_map_of_mem Prod.fst he
    exact (hasField_false_iff _ _).1 hrest this
  rw [hasField_setField_other k e.1 w a hne]

theorem sameShape_of_undefined (y : JsVal) : sameShape undefined y = true := by
  cases y <;> simp [sameShape]

theorem sameShapeFields_setField (a rest : Fields) (k : String) (w : JsVal)
    (hrest : hasField k rest = false) :
    sameShapeFields (setField k w a) rest = sameShapeFields a rest := by
  induction rest with
  | nil => simp [sameShapeFields]
  | cons p r ih =>
    obtain ⟨k1, v1⟩ := p
    by_cases hk : k1 = k
    · simp [hasField, hk] at hrest
    · simp [hasField, hk] at hrest
      simp [sameShapeFields, getField_setField_other k k1 w a hk, ih hrest]

theorem sameShapeFields_nil (b : Fields) : sameShapeFields [] b = true := by
  induction b with
  | nil => simp [sameShapeFields]
  | cons p r ih =>
    obtain ⟨k1, v1⟩ := p
    simp [sameShapeFields, getField, sameShape_of_undefined, ih]

theorem sameShapeItems_nil (ys : List JsVal) : sameShapeItems [] ys = true := by
  cases ys <;> simp [sameShapeItems]


theorem deepMergeFields_nil (a : Fields) : Spec.deepMergeFields a [] = a := by
  induction a with
  | nil => rfl
  | cons p r ih =>
    obtain ⟨k, v⟩ := p
    simp [Spec.deepMergeFields, hasField, ih]

theorem deepMerge_of_undefined (y : JsVal) : Spec.deepMerge undefined y = y := by
  cases y <;> rfl

mutual
/-- The merged value of lodash is the deep merge. -/
theorem mergeValue_eq_deepMerge : ∀ (y x : JsVal),
    (x = undefined ∨ isData x = true) → isData y = true → sameShape x y = true →
    Lodash.mergeValue x y = Spec.deepMerge x y
  | JsVal.undefined, _, _, hy, _ => by simp [isData] at hy
  | JsVal.func _, _, _, hy, _ => by simp [isData] at hy
  | JsVal.null, x, _, _, _ => by cases x <;> simp [Lodash.mergeValue, Spec.deepMerge]
  | JsVal.bool _, x, _, _, _ => by cases x <;> simp [Lodash.mergeValue, Spec.deepMerge]
  | JsVal.num _, x, _, _, _ => by cases x <;> simp [Lodash.mergeValue, Spec.deepMerge]
  | JsVal.str _, x, _, _, _ => by cases x <;> simp [Lodash.mergeValue, Spec.deepMerge]
  | JsVal.arr ys, x, hx, hy, hs => by
    have hys : isDataItems ys = true := by simpa [isData] using hy
    have hnil := mergeItems_eq_deepMergeItems ys [] rfl hys (sameShapeItems_nil ys)
    have hnil2 : Spec.deepMergeItems [] ys = ys := by cases ys <;> rfl
    cases x with
    | arr xs =>
      have hxs : isDataItems xs = true := by
        rcases hx with h | h
        · exact JsVal.noConfusion h
        · simpa [isData] using h
      have := mergeItems_eq_deepMergeItems ys xs hxs hys (by simpa [sameShape] using hs)
      simp [Lodash.mergeValue, Spec.deepMerge, this]
    | obj a => simp [sameShape] at hs
    | undefined => simp [Lodash.mergeValue, Spec.deepMerge, hnil, hnil2]
    | null => simp [Lodash.mergeValue, Spec.deepMerge, hnil, hnil2]
    | bool _ => simp [Lodash.mergeValue, Spec.deepMerge, hnil, hnil2]
    | num _ => simp [Lodash.mergeValue, Spec.deepMerge, hnil, hnil2]
    | str _ => simp [Lodash.mergeValue, Spec.deepMerge, hnil, hnil2]
    | func _ => simp [Lodash.mergeValue, Spec.deepMerge, hnil, hnil2]
  | JsVal.obj b, x, hx, hy, hs => by
    have hb : isDataFields b = true := by simpa [isData] using hy
    have hnil := mergeFields_eq_deepMergeFields b [] (by simp [keysOf])
      (fun _ _ => Or.inl rfl) hb (sameShapeFields_nil b)
    have hnil2 : Spec.deepMergeFields [] b ++ b.filter (fun e => !hasField e.1 []) = b := by
      simp [Spec.deepMergeFields, hasField]
    rw [hnil2] at hnil
    cases x with
    | obj a =>
      have ha : isDataFields a = true := by
        rcases hx with h | h
        · exact JsVal.noConfusion h
        · simpa [isData] using h
      have := mergeFields_eq_deepMergeFields b a (isDataFields_nodup a ha)
        (fun key _ => isDataFields_getField key a ha) hb (by simpa [sameShape] using hs)
      simp [Lodash.mergeValue, Spec.deepMerge, this]
    | arr xs => simp [sameShape] at hs
    | undefined => simp [Lodash.mergeValue, Spec.deepMerge, hnil]
    | null => simp [Lodash.mergeValue, Spec.deepMerge, hnil]
    | bool _ => simp [Lodash.mergeValue, Spec.deepMerge, hnil]
    | num _ => simp [Lodash.mergeValue, Spec.deepMerge, hnil]
    | str _ => simp [Lodash.mergeValue, Spec.deepMerge, hnil]
    | func _ => simp [Lodash.mergeValue, Spec.deepMerge, hnil]
/-- The merged array of lodash is the deep merge of the arrays. -/
theorem mergeItems_eq_deepMergeItems : ∀ (ys xs : List JsVal),
    isDataItems xs = true → isDataItems ys = true → sameShapeItems xs ys = true →
    Lodash.mergeItems xs ys = Spec.deepMergeItems xs ys
  | [], xs, _, _, _ => by cases xs <;> simp [Lodash.mergeItems, Spec.deepMergeItems]
  | y :: ys, [], _, hy, _ => by
    rw [isDataItems_cons] at hy
    have h1 := mergeValue_eq_deepMerge y undefined (Or.inl rfl) hy.1 (sameShape_of_undefined y)
    have h2 := mergeItems_eq_deepMergeItems ys [] rfl hy.2 (sameShapeItems_nil ys)
    have h3 : Spec.deepMergeItems [] ys = ys := by cases ys <;> rfl
    simp [Lodash.mergeItems, Spec.deepMergeItems, h1, h2, h3, deepMerge_of_undefined]
  | y :: ys, x :: xs, hx, hy, hs => by
    rw [isDataItems_cons] at hx hy
    have hs2 : sameShape x y = true ∧ sameShapeItems xs ys = true := by
      simpa [sameShapeItems] using hs
    have h1 := mergeValue_eq_deepMerge y x (Or.inr hx.1) hy.1 hs2.1
    have h2 := mergeItems_eq_deepMergeItems ys xs hx.2 hy.2 hs2.2
    have hne := mergeValue_ne_undefined x y (isData_ne_undefined hy.1)
    have h3 : (match Lodash.mergeValue x y with
        | undefined => x
        | v => v) = Lodash.mergeValue x y := by
      cases hm : Lodash.mergeValue x y <;> first | exact absurd hm hne | rfl
    simp only [Lodash.mergeItems, Spec.deepMergeItems]
    rw [h1, h2]
/-- The merged object of lodash is the deep merge of the objects. -/
theorem mergeFields_eq_deepMergeFields : ∀ (b : List (String × JsVal)) (a : Fields),
    (keysOf a).Nodup →
    (∀ key, hasField key b = true →
      getField key a = undefined ∨ isData (getField key a) = true) →
    isDataFields b = true → sameShapeFields a b = true →
    Lodash.mergeFields a b = Spec.deepMergeFields a b ++ b.filter (fun e => !hasField e.1 a)
  | [], a, _, _, _, _ => by
    simp [Lodash.mergeFields, deepMergeFields_nil]
  | (k, v) :: rest, a, hnodup, ha, hb, hs => by
    rw [isDataFields_cons] at hb
    have hs2 : sameShape (getField k a) v = true ∧ sameShapeFields a rest = true := by
      simpa [sameShapeFields] using hs
    have h1 := mergeValue_eq_deepMerge v (getField k a) (ha k (by simp [hasField])) hb.2.1 hs2.1
    have hne := mergeValue_ne_undefined (getField k a) v (isData_ne_undefined hb.2.1)
    rw [mergeFields_cons, assignMergeValue_of_ne _ _ _ hne, h1]
    have hrec := mergeFields_eq_deepMergeFields rest
      (setField k (Spec.deepMerge (getField k a) v) a)
      (nodup_setField k _ a hnodup)
      (fun key hkey => by
        have hne2 : key ≠ k := by
          intro e; rw [e, hb.1] at hkey; exact Bool.noConfusion hkey
        rw [getField_setField_other k key _ a hne2]
        apply ha key
        simp [hasField, hkey])
      hb.2.2
      (by rw [sameShapeFields_setField a rest k _ hb.1]; exact hs2.2)
    rw [hrec, filter_absent_setField a rest k _ hb.1]
    cases hmem : hasField k a
    · have hget : getField k a = undefined := hasField_false_getField hmem
      rw [hget, deepMerge_of_undefined, setField_absent k v a hmem, deepMergeFields_append,
        deepMergeFields_cons_absent a k v rest hmem]
      simp [Spec.deepMergeFields, hb.1, List.filter, hmem]
    · rw [deepMergeFields_setField a k v rest hnodup hmem hb.1]
      simp [List.filter, hmem]
end


/-- On documents of plain data that agree in shape, `_.merge` is the deep
merge. -/
theorem merge_eq_deepMerge (stored incoming : Fields)
    (hstored : isData (obj stored) = true) (hincoming : isData (obj incoming) = true)
    (hshape : sameShape (obj stored) (obj incoming) = true) :
    Lodash.merge (obj stored) (obj incoming) = Spec.deepMerge (obj stored) (obj incoming) := by
  have h := mergeValue_eq_deepMerge (obj incoming) (obj stored) (Or.inr hstored) hincoming hshape
  simpa [Lodash.merge, Lodash.enumerableProps, Lodash.mergeValue] using h

/-- C1 fails as stated: after CREATE `{_id: 'X', b: 2}`, the UPDATE
`{_id: 'X', b: undefined}` leaves `b: 2`, and after CREATE
`{_id: 'X', tags: ['a', 'b', 'c']}`, the UPDATE `{_id: 'X', tags: ['z']}`
leaves `tags: ['z', 'b', 'c']`: in neither case does the field of the incoming
document take precedence. -/
theorem C1_incoming_field_does_not_always_take_precedence :
    hasField "b" [("_id", str "X"), ("b", undefined)] = true ∧
    member (((getOpque.queueOperation (str CREATE)
        (obj [("_id", str "X"), ("b", num 2)]) undefined).state.queueOperation
      (str UPDATE) (obj [("_id", str "X"), ("b", undefined)]) undefined).state.currentOperation
      (obj [("_id", str "X"), ("b", undefined)])) "doc"
      = obj [("_id", str "X"), ("b", num 2)] ∧
    member (((getOpque.queueOperation (str CREATE)
        (obj [("_id", str "X"), ("tags", arr [str "a", str "b", str "c"])])
        undefined).state.queueOperation
      (str UPDATE) (obj [("_id", str "X"), ("tags", arr [str "z"])]) undefined).state.currentOperation
      (obj [("_id", str "X"), ("tags", arr [str "z"])])) "doc"
      = obj [("_id", str "X"), ("tags", arr [str "z", str "b", str "c"])] :=
  ⟨rfl, rfl, rfl⟩

/-- C1 as amended: where the stored document and the incoming one are plain
data and the incoming one holds no array in the place of an object of the
stored one, or the other way round, an UPDATE for an identifier whose pending
record has kind CREATE or UPDATE does not throw, keeps the kind of the record
and replaces its document by the deep merge of the stored document with the
incoming one; every other entry of the queue stays as it was. -/
theorem C1_update_deep_merges_into_pending (self : OpQue) (record stored incoming : Fields)
    (kind : String) (metaData : JsVal)
    (hid : getField self.identifier incoming ≠ undefined)
    (hcur : self.currentOperation (obj incoming) = obj record)
    (hkind : getField "operation" record = str kind)
    (hk : kind = CREATE ∨ kind = UPDATE)
    (hdoc : getField "doc" record = obj stored)
    (hstored : isData (obj stored) = true)
    (hincoming : isData (obj incoming) = true)
    (hshape : sameShape (obj stored) (obj incoming) = true) :
    (self.queueOperation (str UPDATE) (obj incoming) metaData).error = none ∧
    Lodash.isObject ((self.queueOperation (str UPDATE) (obj incoming) metaData).state.currentOperation
      (obj incoming)) = true ∧
    member ((self.queueOperation (str UPDATE) (obj incoming) metaData).state.currentOperation
      (obj incoming)) "operation" = str kind ∧
    member ((self.queueOperation (str UPDATE) (obj incoming) metaData).state.currentOperation
      (obj incoming)) "doc" = Spec.deepMerge (obj stored) (obj incoming) ∧
    ∀ other, other ≠ toPropertyKey (getField self.identifier incoming) →
      getField other (self.queueOperation (str UPDATE) (obj incoming) metaData).state.queue
        = getField other self.queue ∧
      hasField other (self.queueOperation (str UPDATE) (obj incoming) metaData).state.queue
        = hasField other self.queue := by
  have hnotdel : strictEqStr (member (self.currentOperation (obj incoming)) "operation") DELETE
      = false := by
    rw [hcur]
    rcases hk with h | h <;> subst h <;> simp [member, hkind, strictEqStr, CREATE, UPDATE, DELETE]
  have hobj : Lodash.isObject (self.currentOperation (obj incoming)) = true := by
    rw [hcur]; rfl
  have hqueue : (self.queueOperation (str UPDATE) (obj incoming) metaData).state.queue
      = setField (toPropertyKey (getField self.identifier incoming))
          (obj (setField "doc" (Spec.deepMerge (obj stored) (obj incoming)) record))
          self.queue := by
    rw [queueOperation_update self _ metaData (validateDocument_obj _ _ hid)]
    simp only [resetFlushInterval_queue]
    rw [queueUpdate_queue_merge self _ metaData hid hobj hnotdel, hcur]
    simp only [setMember, member, hdoc]
    rw [merge_eq_deepMerge stored incoming hstored hincoming hshape]
  have hident : (self.queueOperation (str UPDATE) (obj incoming) metaData).state.identifier
      = self.identifier := by
    rw [queueOperation_update self _ metaData (validateDocument_obj _ _ hid)]
    simp only [resetFlushInterval_identifier, queueUpdate_identifier]
  have hafter : (self.queueOperation (str UPDATE) (obj incoming) metaData).state.currentOperation
      (obj incoming)
      = obj (setField "doc" (Spec.deepMerge (obj stored) (obj incoming)) record) := by
    simp only [OpQue.currentOperation, hident, hqueue, member, getField_setField_same]
  refine ⟨?_, ?_, ?_, ?_, ?_⟩
  · rw [queueOperation_update self _ metaData (validateDocument_obj _ _ hid)]
  · rw [hafter]; rfl
  · rw [hafter]
    simp only [member]
    rw [getField_setField_other _ _ _ _ (by decide), hkind]
  · rw [hafter]
    simp only [member]
    exact getField_setField_same _ _ _
  · intro other hother
    rw [hqueue]
    exact ⟨getField_setField_other _ _ _ _ hother, hasField_setField_other _ _ _ _ hother⟩

/-- Witness of C1: the example of the specification, CREATE
`{_id: 'X', a: 1, b: 2}` followed by UPDATE `{_id: 'X', b: 3}`, leaves a CREATE
of `{_id: 'X', a: 1, b: 3}`; and an UPDATE record of
`{_id: 'X', a: 1, b: {c: 1, d: [1, 2]}}` followed by UPDATE
`{_id: 'X', b: {c: 3, d: [9], e: null}, f: 'new'}` leaves an UPDATE of
`{_id: 'X', a: 1, b: {c: 3, d: [9, 2], e: null}, f: 'new'}`. -/
theorem C1_update_deep_merges_into_pending_witness :
    (member (((getOpque.queueOperation (str CREATE)
        (obj [("_id", str "X"), ("a", num 1), ("b", num 2)]) undefined).state.queueOperation
      (str UPDATE) (obj [("_id", str "X"), ("b", num 3)]) undefined).state.currentOperation
      (obj [("_id", str "X"), ("b", num 3)])) "operation" = str CREATE ∧
    member (((getOpque.queueOperation (str CREATE)
        (obj [("_id", str "X"), ("a", num 1), ("b", num 2)]) undefined).state.queueOperation
      (str UPDATE) (obj [("_id", str "X"), ("b", num 3)]) undefined).state.currentOperation
      (obj [("_id", str "X"), ("b", num 3)])) "doc"
      = obj [("_id", str "X"), ("a", num 1), ("b", num 3)]) ∧
    (member (((getOpque.queueOperation (str UPDATE)
        (obj [("_id", str "X"), ("a", num 1),
          ("b", obj [("c", num 1), ("d", arr [num 1, num 2])])]) undefined).state.queueOperation
      (str UPDATE)
        (obj [("_id", str "X"), ("b", obj [("c", num 3), ("d", arr [num 9]), ("e", null)]),
          ("f", str "new")]) undefined).state.currentOperation
      (obj [("_id", str "X"), ("b", obj [("c", num 3), ("d", arr [num 9]), ("e", null)]),
          ("f", str "new")])) "operation" = str UPDATE ∧
    member (((getOpque.queueOperation (str UPDATE)
        (obj [("_id", str "X"), ("a", num 1),
          ("b", obj [("c", num 1), ("d", arr [num 1, num 2])])]) undefined).state.queueOperation
      (str UPDATE)
        (obj [("_id", str "X"), ("b", obj [("c", num 3), ("d", arr [num 9]), ("e", null)]),
          ("f", str "new")]) undefined).state.currentOperation
      (obj [("_id", str "X"), ("b", obj [("c", num 3), ("d", arr [num 9]), ("e", null)]),
          ("f", str "new")])) "doc"
      = obj [("_id", str "X"), ("a", num 1),
          ("b", obj [("c", num 3), ("d", arr [num 9, num 2]), ("e", null)]),
          ("f", str "new")]) :=
  have h1 := C1_update_deep_merges_into_pending
    (getOpque.queueOperation (str CREATE)
      (obj [("_id", str "X"), ("a", num 1), ("b", num 2)]) undefined).state
    [("operation", str CREATE), ("doc", obj [("_id", str "X"), ("a", num 1), ("b", num 2)])]
    [("_id", str "X"), ("a", num 1), ("b", num 2)]
    [("_id", str "X"), ("b", num 3)]
    CREATE undefined
    (fun e => JsVal.noConfusion (show str "X" = undefined from e)) rfl rfl (Or.inl rfl) rfl
    rfl rfl rfl
  have h2 := C1_update_deep_merges_into_pending
    (getOpque.queueOperation (str UPDATE)
      (obj [("_id", str "X"), ("a", num 1),
        ("b", obj [("c", num 1), ("d", arr [num 1, num 2])])]) undefined).state
    [("operation", str UPDATE), ("doc", obj [("_id", str "X"), ("a", num 1),
        ("b", obj [("c", num 1), ("d", arr [num 1, num 2])])])]
    [("_id", str "X"), ("a", num 1), ("b", obj [("c", num 1), ("d", arr [num 1, num 2])])]
    [("_id", str "X"), ("b", obj [("c", num 3), ("d", arr [num 9]), ("e", null)]),
      ("f", str "new")]
    UPDATE undefined
    (fun e => JsVal.noConfusion (show str "X" = undefined from e)) rfl rfl (Or.inr rfl) rfl
    rfl rfl rfl
  ⟨⟨h1.2.2.1, h1.2.2.2.1.trans rfl⟩, ⟨h2.2.2.1, h2.2.2.2.1.trans rfl⟩⟩

/-- C2 at its failing inputs: on a new instance with the identifier `_id`,
CREATE then DELETE of `{_id: '0'}` leaves the queue `{0: '0'}`, an entry under
the very key of the identifier, and CREATE then DELETE of `{_id: [[0]]}`,
whose key is `0` as well, leaves the queue `{0: [0]}`, where the entry under
the key of the identifier is an object, which is what the methods take for a
pending record. -/
theorem C2_create_then_delete_leaves_an_entry_for_the_identifier :
    ((getOpque.queueOperation (str CREATE) (obj [("_id", str "0")]) undefined).state.queueOperation
      (str DELETE) (obj [("_id", str "0")]) undefined).error = none ∧
    ((getOpque.queueOperation (str CREATE) (obj [("_id", str "0")]) undefined).state.queueOperation
      (str DELETE) (obj [("_id", str "0")]) undefined).state.queue = [("0", str "0")] ∧
    ((getOpque.queueOperation (str CREATE) (obj [("_id", str "0")]) undefined).state.queueOperation
      (str DELETE) (obj [("_id", str "0")]) undefined).state.currentOperation
      (obj [("_id", str "0")]) = str "0" ∧
    toPropertyKey (arr [arr [num 0]]) = "0" ∧
    ((getOpque.queueOperation (str CREATE) (obj [("_id", arr [arr [num 0]])])
      undefined).state.queueOperation (str DELETE) (obj [("_id", arr [arr [num 0]])])
      undefined).error = none ∧
    ((getOpque.queueOperation (str CREATE) (obj [("_id", arr [arr [num 0]])])
      undefined).state.queueOperation (str DELETE) (obj [("_id", arr [arr [num 0]])])
      undefined).state.queue = [("0", arr [num 0])] ∧
    Lodash.isObject (((getOpque.queueOperation (str CREATE) (obj [("_id", arr [arr [num 0]])])
      undefined).state.queueOperation (str DELETE) (obj [("_id", arr [arr [num 0]])])
      undefined).state.currentOperation (obj [("_id", arr [arr [num 0]])])) = true :=
  ⟨rfl, rfl, rfl, rfl, rfl, rfl, rfl⟩

/-- A DELETE for an identifier with a pending CREATE replaces the whole queue
by `_.omit(id)`, whatever else the queue held. -/
theorem queue_after_delete_of_created (self : OpQue) (fields record : Fields) (metaData : JsVal)
    (hid : getField self.identifier fields ≠ undefined)
    (hcur : self.currentOperation (obj fields) = obj record)
    (hkind : getField "operation" record = str CREATE) :
    (self.queueOperation (str DELETE) (obj fields) metaData).state.queue =
      Lodash.omitNoPaths (getField self.identifier fields) := by
  rw [queueOperation_delete self _ metaData (validateDocument_obj _ _ hid)]
  simp only [resetFlushInterval_queue]
  rw [queueDelete_queue_created self fields metaData hid (by rw [hcur]; rfl)
    (by rw [hcur]; simp [member, hkind, strictEqStr, CREATE])]

/-- C3 at its failing input: with CREATE records pending for identifiers 1 and
2, the DELETE of document 1 empties the queue, so the record of identifier 2 is
lost as well. -/
theorem C3_delete_of_created_drops_other_records :
    ((getOpque.queueOperation (str CREATE) (obj [("_id", num 1)]) undefined).state.queueOperation
        (str CREATE) (obj [("_id", num 2)]) undefined).state.queue
      = [("1", obj [("operation", str CREATE), ("doc", obj [("_id", num 1)])]),
         ("2", obj [("operation", str CREATE), ("doc", obj [("_id", num 2)])])] ∧
    (((getOpque.queueOperation (str CREATE) (obj [("_id", num 1)]) undefined).state.queueOperation
        (str CREATE) (obj [("_id", num 2)]) undefined).state.queueOperation
        (str DELETE) (obj [("_id", num 1)]) undefined).error = none ∧
    (((getOpque.queueOperation (str CREATE) (obj [("_id", num 1)]) undefined).state.queueOperation
        (str CREATE) (obj [("_id", num 2)]) undefined).state.queueOperation
        (str DELETE) (obj [("_id", num 1)]) undefined).state.queue = [] ∧
    (((getOpque.queueOperation (str CREATE) (obj [("_id", num 1)]) undefined).state.queueOperation
        (str CREATE) (obj [("_id", num 2)]) undefined).state.queueOperation
        (str DELETE) (obj [("_id", num 1)]) undefined).state.currentOperation (obj [("_id", num 2)])
      = undefined :=
  ⟨rfl, rfl, rfl, rfl⟩

/-- C4: a DELETE for an identifier whose pending record is an UPDATE or a
DELETE, or that has no pending record, leaves under that identifier a DELETE
record holding the document of the call (and the metadata of the call, if
any) and nothing of what was stored before. -/
theorem C4_delete_replaces_pending_record (self : OpQue) (fields : Fields) (metaData : JsVal)
    (hid : getField self.identifier fields ≠ undefined)
    (hcur : (∃ record, self.currentOperation (obj fields) = obj record ∧
        getField "operation" record = str UPDATE) ∨
      (∃ record, self.currentOperation (obj fields) = obj record ∧
        getField "operation" record = str DELETE) ∨
      Lodash.isObject (self.currentOperation (obj fields)) = false) :
    (self.queueOperation (str DELETE) (obj fields) metaData).error = none ∧
    (self.queueOperation (str DELETE) (obj fields) metaData).state.currentOperation (obj fields)
      = (if Lodash.isUndefined metaData then obj [("operation", str DELETE), ("doc", obj fields)]
          else obj [("operation", str DELETE), ("doc", obj fields), ("metaData", metaData)]) ∧
    member ((self.queueOperation (str DELETE) (obj fields) metaData).state.currentOperation
      (obj fields)) "operation" = str DELETE ∧
    member ((self.queueOperation (str DELETE) (obj fields) metaData).state.currentOperation
      (obj fields)) "doc" = obj fields := by
  have hnot : (Lodash.isObject (self.currentOperation (obj fields))
      && strictEqStr (member (self.currentOperation (obj fields)) "operation") CREATE) = false := by
    rcases hcur with ⟨record, hrec, hkind⟩ | ⟨record, hrec, hkind⟩ | hnone
    · rw [hrec]; simp [member, hkind, strictEqStr, CREATE, UPDATE]
    · rw [hrec]; simp [member, hkind, strictEqStr, CREATE, DELETE]
    · rw [hnone]; rfl
  have hafter : (self.queueOperation (str DELETE) (obj fields) metaData).state.currentOperation
      (obj fields)
      = (if Lodash.isUndefined metaData then obj [("operation", str DELETE), ("doc", obj fields)]
          else obj [("operation", str DELETE), ("doc", obj fields), ("metaData", metaData)]) := by
    rw [queueOperation_delete self _ metaData (validateDocument_obj _ _ hid)]
    simp only [OpQue.currentOperation, resetFlushInterval_queue, resetFlushInterval_identifier,
      queueDelete_identifier, member]
    rw [queueDelete_queue_other self _ metaData hid hnot, getField_setField_same]
  refine ⟨?_, hafter, ?_, ?_⟩
  · rw [queueOperation_delete self _ metaData (validateDocument_obj _ _ hid)]
  · rw [hafter]; split <;> rfl
  · rw [hafter]; split <;> rfl

/-- Witness of C4, the test `should replace and update if a delete comes in`:
UPDATE then DELETE of `{_id: 1, value: 'create me bruh'}` leaves a DELETE
record with that document. -/
theorem C4_delete_replaces_pending_record_witness :
    (getOpque.queueOperation (str UPDATE)
        (obj [("_id", num 1), ("value", str "create me bruh")]) undefined).state.currentOperation
      (obj [("_id", num 1), ("value", str "create me bruh")])
      = obj [("operation", str UPDATE), ("doc", obj [("_id", num 1), ("value", str "create me bruh")])] ∧
    ((getOpque.queueOperation (str UPDATE)
        (obj [("_id", num 1), ("value", str "create me bruh")]) undefined).state.queueOperation
      (str DELETE) (obj [("_id", num 1), ("value", str "create me bruh")]) undefined).state.currentOperation
      (obj [("_id", num 1), ("value", str "create me bruh")])
      = obj [("operation", str DELETE), ("doc", obj [("_id", num 1), ("value", str "create me bruh")])] :=
  ⟨rfl, (C4_delete_replaces_pending_record
    (getOpque.queueOperation (str UPDATE)
      (obj [("_id", num 1), ("value", str "create me bruh")]) undefined).state
    [("_id", num 1), ("value", str "create me bruh")] undefined
    (fun e => JsVal.noConfusion (show num 1 = undefined from e))
    (Or.inl ⟨[("operation", str UPDATE),
      ("doc", obj [("_id", num 1), ("value", str "create me bruh")])], rfl, rfl⟩)).2.1⟩

/-- C5 fails as stated: a new instance has no pending record for the
identifier `'constructor'`, yet an UPDATE of `{_id: 'constructor'}` does not
throw and stores nothing.  Under that key the queue inherits the function
`Object`, which `_queueUpdate` takes for a pending record. -/
theorem C5_update_under_inherited_name_stores_nothing :
    getOpque.queue = [] ∧
    Lodash.isObject (getOpque.currentOperation (obj [("_id", str "constructor")])) = false ∧
    getOpque.queued (obj [("_id", str "constructor")])
      = func "function Object() { [native code] }" ∧
    (getOpque.queueOperation (str UPDATE) (obj [("_id", str "constructor")]) undefined).error
      = none ∧
    (getOpque.queueOperation (str UPDATE) (obj [("_id", str "constructor")])
      undefined).state.queue = [] ∧
    (getOpque.queueOperation (str UPDATE) (obj [("_id", str "constructor")])
      undefined).state.currentOperation (obj [("_id", str "constructor")]) = undefined :=
  ⟨rfl, rfl, rfl, rfl, rfl, rfl⟩

/-- C5 as amended: when the identifier of the document has no pending record
and its key is not the name of a property the queue inherits from
`Object.prototype`, a call without metadata stores under it exactly the record
of the operation and the document, and leaves every other entry of the queue
as it was. -/
theorem C5_first_operation_is_stored (self : OpQue) (kind : String) (fields : Fields)
    (hk : kind = CREATE ∨ kind = UPDATE ∨ kind = DELETE)
    (hid : getField self.identifier fields ≠ undefined)
    (hnone : Lodash.isObject (self.currentOperation (obj fields)) = false)
    (hname : isInheritedName (toPropertyKey (getField self.identifier fields)) = false) :
    (self.queueOperation (str kind) (obj fields) undefined).error = none ∧
    (self.queueOperation (str kind) (obj fields) undefined).state.currentOperation (obj fields)
      = obj [("operation", str kind), ("doc", obj fields)] ∧
    ∀ other, other ≠ toPropertyKey (getField self.identifier fields) →
      getField other (self.queueOperation (str kind) (obj fields) undefined).state.queue
        = getField other self.queue ∧
      hasField other (self.queueOperation (str kind) (obj fields) undefined).state.queue
        = hasField other self.queue := by
  have hv := validateDocument_obj fields self.identifier hid
  have hnot : (Lodash.isObject (self.currentOperation (obj fields))
      && strictEqStr (member (self.currentOperation (obj fields)) "operation") CREATE) = false := by
    rw [hnone]; rfl
  have hq : (self.queueOperation (str kind) (obj fields) undefined).error = none ∧
      (self.queueOperation (str kind) (obj fields) undefined).state.identifier = self.identifier ∧
      (self.queueOperation (str kind) (obj fields) undefined).state.queue =
        setField (toPropertyKey (getField self.identifier fields))
          (obj [("operation", str kind), ("doc", obj fields)]) self.queue := by
    rcases hk with h | h | h <;> subst h
    · rw [queueOperation_create self _ _ hv]
      exact ⟨rfl, by simp [queueCreate_identifier],
        by simp [queueCreate_queue self _ _ hid, Lodash.isUndefined]⟩
    · rw [queueOperation_update self _ _ hv]
      exact ⟨rfl, by simp [queueUpdate_identifier],
        by simp [queueUpdate_queue_none self _ _ hid hnone (Or.inr hname), Lodash.isUndefined]⟩
    · rw [queueOperation_delete self _ _ hv]
      exact ⟨rfl, by simp [queueDelete_identifier],
        by simp [queueDelete_queue_other self _ _ hid hnot, Lodash.isUndefined]⟩
  obtain ⟨herr, hident, hqueue⟩ := hq
  refine ⟨herr, ?_, ?_⟩
  · simp only [OpQue.currentOperation, hident, hqueue, member, getField_setField_same]
  · intro other hother
    rw [hqueue]
    exact ⟨getField_setField_other _ _ _ _ hother, hasField_setField_other _ _ _ _ hother⟩

/-- Witness of C5, the test `should add the document to the queue as a create
operation`, on a queue that already holds another document. -/
theorem C5_first_operation_is_stored_witness :
    Lodash.isObject ((getOpque.queueOperation (str UPDATE) (obj [("_id", num 0)])
      undefined).state.currentOperation (obj [("_id", num 1), ("value", str "create me bruh")]))
      = false ∧
    isInheritedName (toPropertyKey (getField "_id"
      [("_id", num 1), ("value", str "create me bruh")])) = false ∧
    ((getOpque.queueOperation (str UPDATE) (obj [("_id", num 0)]) undefined).state.queueOperation
      (str CREATE) (obj [("_id", num 1), ("value", str "create me bruh")]) undefined).state.queue
      = [("0", obj [("operation", str UPDATE), ("doc", obj [("_id", num 0)])]),
         ("1", obj [("operation", str CREATE),
            ("doc", obj [("_id", num 1), ("value", str "create me bruh")])])] ∧
    ((getOpque.queueOperation (str UPDATE) (obj [("_id", num 0)]) undefined).state.queueOperation
      (str CREATE) (obj [("_id", num 1), ("value", str "create me bruh")])
      undefined).state.currentOperation (obj [("_id", num 1), ("value", str "create me bruh")])
      = obj [("operation", str CREATE),
          ("doc", obj [("_id", num 1), ("value", str "create me bruh")])] :=
  ⟨rfl, rfl, rfl, (C5_first_operation_is_stored
    (getOpque.queueOperation (str UPDATE) (obj [("_id", num 0)]) undefined).state CREATE
    [("_id", num 1), ("value", str "create me bruh")] (Or.inl rfl)
    (fun e => JsVal.noConfusion (show num 1 = undefined from e)) rfl rfl).2.1⟩

theorem getField_assignMergeValue_self (key : String) (value : JsVal) (object : Fields) :
    getField key (Lodash.assignMergeValue object key value) =
      (match value with
        | undefined => getField key object
        | v => v) := by
  cases value <;> simp only [Lodash.assignMergeValue] <;>
    first
    | exact getField_setField_same key _ object
    | skip
  split
  · rfl
  · rename_i h
    rw [getField_setField_same, hasField_false_getField (by simp at h; exact h.1)]

theorem getField_mergeFields_present (name : String) (source object : Fields)
    (hnodup : (keysOf source).Nodup) (hmem : hasField name source = true) :
    getField name (Lodash.mergeFields object source) =
      (match Lodash.mergeValue (getField name object) (getField name source) with
        | undefined => getField name object
        | v => v) := by
  induction source generalizing object with
  | nil => simp [hasField] at hmem
  | cons p rest ih =>
    obtain ⟨k, v⟩ := p
    simp [keysOf] at hnodup
    rw [mergeFields_cons]
    by_cases hk : k = name
    · subst hk
      rw [getField_mergeFields_absent k rest _ (by simpa [keysOf] using hnodup.1),
        getField_assignMergeValue_self]
      simp [getField]
    · simp [hasField, hk] at hmem
      rw [ih _ (by simpa [keysOf] using hnodup.2) hmem,
        getField_assignMergeValue_other k name _ object (fun e => hk e.symm)]
      simp [getField, hk]

theorem mergeItems_nil (object : List JsVal) : Lodash.mergeItems object [] = object := by
  simp [Lodash.mergeItems]

theorem mergeItems_primitives (srcItems objItems : List JsVal)
    (h : ∀ y ∈ srcItems, isPrimitive y = true) :
    Lodash.mergeItems objItems srcItems = srcItems ++ objItems.drop srcItems.length := by
  induction srcItems generalizing objItems with
  | nil => simp [mergeItems_nil]
  | cons y ys ih =>
    have hy := h y (List.mem_cons_self y ys)
    have hys : ∀ z ∈ ys, isPrimitive z = true := fun z hz => h z (List.mem_cons_of_mem y hz)
    cases objItems with
    | nil =>
      simp only [Lodash.mergeItems, mergeValue_primitive _ _ hy, ih [] hys]
      simp
    | cons x xs =>
      simp only [Lodash.mergeItems, mergeValue_primitive _ _ hy, ih xs hys]
      cases y <;> simp [isPrimitive] at hy <;> simp

/-- C6 fails as stated: after CREATE `{_id: 1, a: [1, 2]}` and UPDATE
`{_id: 1, a: [9]}` the queued document has `a: [9, 2]`, which is not the array
of the incoming document. -/
theorem C6_incoming_array_does_not_replace_longer_array :
    member (obj [("_id", num 1), ("a", arr [num 9])]) "a" = arr [num 9] ∧
    member (member (((getOpque.queueOperation (str CREATE)
        (obj [("_id", num 1), ("a", arr [num 1, num 2])]) undefined).state.queueOperation
      (str UPDATE) (obj [("_id", num 1), ("a", arr [num 9])]) undefined).state.currentOperation
      (obj [("_id", num 1), ("a", arr [num 9])])) "doc") "a" = arr [num 9, num 2] ∧
    member (member (((getOpque.queueOperation (str CREATE)
        (obj [("_id", num 1), ("a", arr [num 1, num 2])]) undefined).state.queueOperation
      (str UPDATE) (obj [("_id", num 1), ("a", arr [num 9])]) undefined).state.currentOperation
      (obj [("_id", num 1), ("a", arr [num 9])])) "doc") "a"
      ≠ member (obj [("_id", num 1), ("a", arr [num 9])]) "a" :=
  ⟨rfl, rfl, fun e => by
    have h : arr [num 9, num 2] = arr [num 9] := e
    simp at h⟩

/-- C6 as amended: in the merge of an incoming document into a stored one,
every primitive field of the incoming document has the incoming value; an
incoming array of primitive values is merged index by index, giving the
incoming elements followed by the stored elements beyond the incoming length
where the stored value is an array, and the incoming array itself where the
stored value is absent or primitive; every field that the incoming document
does not have, or has as `undefined`, keeps the stored value. -/
theorem C6_merge_field_by_field (stored incoming : Fields)
    (hnodup : (keysOf incoming).Nodup) :
    (∀ name value, getField name incoming = value → isPrimitive value = true →
      member (Lodash.merge (obj stored) (obj incoming)) name = value) ∧
    (∀ name objItems srcItems, getField name stored = arr objItems →
      getField name incoming = arr srcItems → (∀ y ∈ srcItems, isPrimitive y = true) →
      member (Lodash.merge (obj stored) (obj incoming)) name
        = arr (srcItems ++ objItems.drop srcItems.length)) ∧
    (∀ name srcItems, Lodash.isObject (getField name stored) = false →
      getField name incoming = arr srcItems → (∀ y ∈ srcItems, isPrimitive y = true) →
      member (Lodash.merge (obj stored) (obj incoming)) name = arr srcItems) ∧
    (∀ name, getField name incoming = undefined →
      member (Lodash.merge (obj stored) (obj incoming)) name = getField name stored) := by
  simp only [Lodash.merge, Lodash.enumerableProps, member]
  refine ⟨?_, ?_, ?_, ?_⟩
  · intro name value hget hprim
    exact getField_mergeFields_primitive name value incoming stored hnodup hget hprim
  · intro name objItems srcItems hobj hsrc hprim
    rw [getField_mergeFields_present name incoming stored hnodup
      (hasField_of_getField_ne (by rw [hsrc]; exact fun e => JsVal.noConfusion e)), hobj, hsrc]
    simp only [Lodash.mergeValue, mergeItems_primitives srcItems objItems hprim]
  · intro name srcItems hobj hsrc hprim
    rw [getField_mergeFields_present name incoming stored hnodup
      (hasField_of_getField_ne (by rw [hsrc]; exact fun e => JsVal.noConfusion e)), hsrc]
    have hm : Lodash.mergeValue (getField name stored) (arr srcItems) = arr srcItems := by
      cases hs : getField name stored <;> rw [hs] at hobj <;>
        first
        | exact Bool.noConfusion hobj
        | simp [Lodash.mergeValue, mergeItems_primitives srcItems [] hprim]
    rw [hm]
  · intro name hundef
    cases hmem : hasField name incoming
    · apply getField_mergeFields_absent
      intro hkey
      rw [← hasField_eq_mem, hmem] at hkey
      exact Bool.noConfusion hkey
    · rw [getField_mergeFields_present name incoming stored hnodup hmem, hundef]
      simp [Lodash.mergeValue]

/-- Witness of C6, the test `should merge the create with the new update`:
the incoming `accessGroups: [2]` and `title: 'updated'` are what the merged
document holds. -/
theorem C6_merge_field_by_field_witness :
    (keysOf [("_id", str "docId"), ("accessGroups", arr [num 2]), ("title", str "updated")]).Nodup ∧
    member (Lodash.merge
      (obj [("_id", str "docId"), ("accessGroups", arr [num 1]),
        ("title", str "this should get overwritten")])
      (obj [("_id", str "docId"), ("accessGroups", arr [num 2]), ("title", str "updated")]))
      "title" = str "updated" ∧
    member (Lodash.merge
      (obj [("_id", str "docId"), ("accessGroups", arr [num 1]),
        ("title", str "this should get overwritten")])
      (obj [("_id", str "docId"), ("accessGroups", arr [num 2]), ("title", str "updated")]))
      "accessGroups" = arr [num 2] :=
  have h := C6_merge_field_by_field
    [("_id", str "docId"), ("accessGroups", arr [num 1]),
      ("title", str "this should get overwritten")]
    [("_id", str "docId"), ("accessGroups", arr [num 2]), ("title", str "updated")]
    (by decide)
  ⟨by decide, h.1 "title" (str "updated") rfl rfl,
    h.2.1 "accessGroups" [num 1] [num 2] rfl rfl (by
      intro y hy
      simp only [List.mem_singleton] at hy
      subst hy
      rfl)⟩

/-- C7 fails as stated: with a DELETE of document 1 pending under metadata
`'a'`, an UPDATE of document 1 called with metadata `'b'` does not throw and
the pending record still carries `'a'`. -/
theorem C7_update_on_pending_delete_keeps_old_metadata :
    ((getOpque.queueOperation (str DELETE) (obj [("_id", num 1)]) (str "a")).state.queueOperation
      (str UPDATE) (obj [("_id", num 1)]) (str "b")).error = none ∧
    Lodash.isUndefined (str "b") = false ∧
    Lodash.isObject (((getOpque.queueOperation (str DELETE) (obj [("_id", num 1)])
      (str "a")).state.queueOperation (str UPDATE) (obj [("_id", num 1)])
      (str "b")).state.currentOperation (obj [("_id", num 1)])) = true ∧
    member (((getOpque.queueOperation (str DELETE) (obj [("_id", num 1)])
      (str "a")).state.queueOperation (str UPDATE) (obj [("_id", num 1)])
      (str "b")).state.currentOperation (obj [("_id", num 1)])) "metaData" = str "a" ∧
    member (((getOpque.queueOperation (str DELETE) (obj [("_id", num 1)])
      (str "a")).state.queueOperation (str UPDATE) (obj [("_id", num 1)])
      (str "b")).state.currentOperation (obj [("_id", num 1)])) "metaData" ≠ str "b" :=
  ⟨rfl, rfl, rfl, rfl, fun e => by
    have h : str "a" = str "b" := e
    simp at h⟩

/-- C7 as amended: for a CREATE, for a DELETE, and for an UPDATE of an
identifier with no pending record, where the identifier is a primitive value:
when metadata is supplied and a record is pending for the identifier after the
call, the metadata of that record is the supplied one. -/
theorem C7_stored_record_carries_metadata (self : OpQue) (kind : String) (fields : Fields)
    (metaData : JsVal)
    (hprim : isPrimitive (getField self.identifier fields) = true)
    (hmeta : metaData ≠ undefined)
    (hk : kind = CREATE ∨ kind = DELETE ∨
      (kind = UPDATE ∧ Lodash.isObject (self.currentOperation (obj fields)) = false)) :
    (self.queueOperation (str kind) (obj fields) metaData).error = none ∧
    (Lodash.isObject ((self.queueOperation (str kind) (obj fields) metaData).state.currentOperation
        (obj fields)) = true →
      member ((self.queueOperation (str kind) (obj fields) metaData).state.currentOperation
        (obj fields)) "metaData" = metaData) := by
  have hid := primitive_ne_undefined hprim
  have hv := validateDocument_obj fields self.identifier hid
  have hm := isUndefined_eq_false hmeta
  rcases hk with h | h | ⟨h, hnone⟩ <;> subst h
  · rw [queueOperation_create self _ _ hv]
    refine ⟨rfl, fun _ => ?_⟩
    simp [OpQue.currentOperation, queueCreate_identifier, queueCreate_queue self fields _ hid, hm,
      getField_setField_same, member, getField, CREATE]
  · rw [queueOperation_delete self _ _ hv]
    refine ⟨rfl, ?_⟩
    cases hc : (Lodash.isObject (self.currentOperation (obj fields))
        && strictEqStr (member (self.currentOperation (obj fields)) "operation") CREATE)
    · intro _
      simp [OpQue.currentOperation, queueDelete_identifier,
        queueDelete_queue_other self _ _ hid hc,
        hm, getField_setField_same, member, getField, DELETE]
    · intro hobj
      rw [Bool.and_eq_true] at hc
      simp only [OpQue.currentOperation, resetFlushInterval_queue,
        queueDelete_queue_created self _ metaData hid hc.1 hc.2] at hobj
      rw [isObject_getField_omitNoPaths _ _ (by simpa [member] using hprim)] at hobj
      exact Bool.noConfusion hobj
  · rw [queueOperation_update self _ _ hv]
    cases hown : hasField (toPropertyKey (getField self.identifier fields)) self.queue
    · cases hname : isInheritedName (toPropertyKey (getField self.identifier fields))
      · refine ⟨rfl, fun _ => ?_⟩
        simp [OpQue.currentOperation, queueUpdate_identifier,
          queueUpdate_queue_none self _ _ hid hnone (Or.inr hname),
          hm, getField_setField_same, member, getField, UPDATE]
      · refine ⟨rfl, fun hobj => ?_⟩
        simp only [OpQue.currentOperation, resetFlushInterval_queue,
          resetFlushInterval_identifier, queueUpdate_identifier,
          queueUpdate_queue_inherited self fields metaData hid hown hname] at hobj
        simp only [OpQue.currentOperation] at hnone
        rw [hnone] at hobj
        exact Bool.noConfusion hobj
    · refine ⟨rfl, fun _ => ?_⟩
      simp [OpQue.currentOperation, queueUpdate_identifier,
        queueUpdate_queue_none self _ _ hid hnone (Or.inl hown),
        hm, getField_setField_same, member, getField, UPDATE]

/-- Witness of C7, the test `should add operation metaData on the the queue if
present`. -/
theorem C7_stored_record_carries_metadata_witness :
    isPrimitive (getField getOpque.identifier [("_id", num 1), ("value", str "create me bruh")])
      = true ∧
    str "Content" ≠ undefined ∧
    member ((getOpque.queueOperation (str CREATE)
      (obj [("_id", num 1), ("value", str "create me bruh")]) (str "Content")).state.currentOperation
      (obj [("_id", num 1), ("value", str "create me bruh")])) "metaData" = str "Content" :=
  ⟨rfl, fun e => JsVal.noConfusion e,
    (C7_stored_record_carries_metadata getOpque CREATE
      [("_id", num 1), ("value", str "create me bruh")] (str "Content") rfl
      (fun e => JsVal.noConfusion e) (Or.inl rfl)).2 rfl⟩

/-- C8: an UPDATE for an identifier whose pending record is a DELETE does not
throw and leaves the queue, and so that record, as it was. -/
theorem C8_update_on_pending_delete_keeps_queue (self : OpQue) (fields record : Fields)
    (metaData : JsVal)
    (hid : getField self.identifier fields ≠ undefined)
    (hcur : self.currentOperation (obj fields) = obj record)
    (hkind : getField "operation" record = str DELETE) :
    (self.queueOperation (str UPDATE) (obj fields) metaData).error = none ∧
    (self.queueOperation (str UPDATE) (obj fields) metaData).state.queue = self.queue ∧
    (self.queueOperation (str UPDATE) (obj fields) metaData).state.currentOperation (obj fields)
      = obj record := by
  rw [queueOperation_update self _ metaData (validateDocument_obj _ _ hid)]
  have hobj : Lodash.isObject (self.currentOperation (obj fields)) = true := by rw [hcur]; rfl
  have hdel : strictEqStr (member (self.currentOperation (obj fields)) "operation") DELETE
      = true := by
    rw [hcur]; simp [member, hkind, strictEqStr, DELETE]
  have hq := queueUpdate_queue_deleted self fields metaData hid hobj hdel
  refine ⟨rfl, ?_, ?_⟩
  · simpa using hq
  · simp only [OpQue.currentOperation, resetFlushInterval_queue, resetFlushInterval_identifier,
      queueUpdate_identifier, hq]
    exact hcur

/-- Witness of C8: an UPDATE after a DELETE of document 1 leaves the DELETE
record of document 1. -/
theorem C8_update_on_pending_delete_keeps_queue_witness :
    (getOpque.queueOperation (str DELETE) (obj [("_id", num 1)]) undefined).state.currentOperation
      (obj [("_id", num 1), ("value", str "late")])
      = obj [("operation", str DELETE), ("doc", obj [("_id", num 1)])] ∧
    ((getOpque.queueOperation (str DELETE) (obj [("_id", num 1)]) undefined).state.queueOperation
      (str UPDATE) (obj [("_id", num 1), ("value", str "late")]) undefined).state.queue
      = [("1", obj [("operation", str DELETE), ("doc", obj [("_id", num 1)])])] :=
  ⟨rfl, (C8_update_on_pending_delete_keeps_queue
    (getOpque.queueOperation (str DELETE) (obj [("_id", num 1)]) undefined).state
    [("_id", num 1), ("value", str "late")]
    [("operation", str DELETE), ("doc", obj [("_id", num 1)])] undefined
    (fun e => JsVal.noConfusion (show num 1 = undefined from e)) rfl rfl).2.1.trans rfl⟩

theorem strictEqStr_eq_true (value : JsVal) (text : String) :
    strictEqStr value text = true ↔ value = str text := by
  cases value <;> simp [strictEqStr]

theorem validateOperation_supported (operation : JsVal)
    (h : operation = str CREATE ∨ operation = str UPDATE ∨ operation = str DELETE) :
    validateOperation operation = Except.ok () := by
  rcases h with h | h | h <;> subst h <;>
    simp [validateOperation, strictEqStr, CREATE, UPDATE, DELETE]

theorem validateOperation_unsupported (operation : JsVal)
    (h : ¬ (operation = str CREATE ∨ operation = str UPDATE ∨ operation = str DELETE)) :
    validateOperation operation = Except.error operationError := by
  have h1 : strictEqStr operation "CREATE" = false := by
    cases hs : strictEqStr operation "CREATE"
    · rfl
    · exact absurd (Or.inl ((strictEqStr_eq_true _ _).1 hs)) h
  have h2 : strictEqStr operation "UPDATE" = false := by
    cases hs : strictEqStr operation "UPDATE"
    · rfl
    · exact absurd (Or.inr (Or.inl ((strictEqStr_eq_true _ _).1 hs))) h
  have h3 : strictEqStr operation "DELETE" = false := by
    cases hs : strictEqStr operation "DELETE"
    · rfl
    · exact absurd (Or.inr (Or.inr ((strictEqStr_eq_true _ _).1 hs))) h
  simp [validateOperation, h1, h2, h3]

theorem validateDocument_cases (doc : JsVal) (identifier : String) :
    validateDocument doc identifier = Except.ok () ∨
    validateDocument doc identifier = Except.error typeError ∨
    validateDocument doc identifier = Except.error documentError := by
  unfold validateDocument
  split
  · exact Or.inr (Or.inl rfl)
  · exact Or.inr (Or.inl rfl)
  · split
    · exact Or.inr (Or.inr rfl)
    · exact Or.inl rfl

/-- C9: `queueOperation` throws the error of `validateOperation` exactly when
the operation is none of `CREATE`, `UPDATE` and `DELETE`, whatever the document
and the metadata are, and the instance is then as it was before the call. -/
theorem C9_unsupported_operation_is_rejected (self : OpQue)
    (operation document metaData : JsVal) :
    ((self.queueOperation operation document metaData).error = some operationError ↔
      ¬ (operation = str CREATE ∨ operation = str UPDATE ∨ operation = str DELETE)) ∧
    ((self.queueOperation operation document metaData).error = some operationError →
      (self.queueOperation operation document metaData).state = self ∧
      (self.queueOperation operation document metaData).state.queue = self.queue) := by
  by_cases hop : operation = str CREATE ∨ operation = str UPDATE ∨ operation = str DELETE
  · have hv := validateOperation_supported operation hop
    have herr : (self.queueOperation operation document metaData).error ≠ some operationError := by
      unfold OpQue.queueOperation
      rw [hv]
      rcases validateDocument_cases document self.identifier with h | h | h <;> rw [h] <;>
        simp [typeError, documentError, operationError]
    exact ⟨⟨fun h => absurd h herr, fun h => absurd hop h⟩, fun h => absurd h herr⟩
  · have hv := validateOperation_unsupported operation hop
    have hout : self.queueOperation operation document metaData
        = { error := some operationError, state := self } := by
      unfold OpQue.queueOperation
      rw [hv]
    rw [hout]
    exact ⟨⟨fun _ => hop, fun _ => rfl⟩, fun _ => ⟨rfl, rfl⟩⟩

theorem inheritedProperty_eq_undefined (key : String) :
    inheritedProperty key = undefined ↔ isInheritedName key = false := by
  unfold inheritedProperty
  by_cases h1 : key = "__proto__"
  · subst h1
    simp only [if_true]
    exact ⟨fun e => JsVal.noConfusion e, fun e => absurd e (by decide)⟩
  · rw [if_neg h1]
    by_cases h2 : key = "constructor"
    · subst h2
      simp only [if_true]
      exact ⟨fun e => JsVal.noConfusion e, fun e => absurd e (by decide)⟩
    · rw [if_neg h2]
      cases h3 : isInheritedName key
      · simp
      · simp

/-- What decides `validateDocument` on a plain object: the read of the
identifier gives `undefined` exactly when the object has an own property of
that name holding `undefined`, or has no such own property and inherits none
of that name. -/
theorem getProperty_eq_undefined (key : String) (fields : Fields) :
    getProperty key fields = undefined ↔
      (getField key fields = undefined ∧
        (hasField key fields = true ∨ isInheritedName key = false)) := by
  unfold getProperty
  cases h : hasField key fields
  · simp [hasField_false_getField h, inheritedProperty_eq_undefined]
  · simp

/-- C10 fails as stated: the document `undefined` has no value under the
identifier field, yet a CREATE of it throws the `TypeError` of the property
read, not the document error. -/
theorem C10_undefined_document_throws_a_type_error :
    (getOpque.queueOperation (str CREATE) undefined undefined).error = some typeError ∧
    (getOpque.queueOperation (str CREATE) undefined undefined).error ≠ some documentError ∧
    (getOpque.queueOperation (str CREATE) null undefined).error = some typeError :=
  ⟨rfl, by decide, rfl⟩

/-- C10 as amended: for a supported operation, a document that is `undefined`
or `null` makes `queueOperation` throw a `TypeError`, and a document that is a
plain object makes it throw the error of `validateDocument` exactly when the
read of the identifier field on it gives `undefined`: the document has an own
property of that name holding `undefined`, or it has no own property of that
name and the name is not one of `Object.prototype`; a plain object that is
not rejected is queued without an error.  When the call throws, the instance
is as it was before the call. -/
theorem C10_document_error_iff_identifier_reads_undefined (self : OpQue) (operation : String)
    (metaData : JsVal)
    (hop : operation = CREATE ∨ operation = UPDATE ∨ operation = DELETE) :
    (∀ document, document = undefined ∨ document = null →
      (self.queueOperation (str operation) document metaData).error = some typeError ∧
      (self.queueOperation (str operation) document metaData).state = self) ∧
    (∀ fields : Fields,
      ((self.queueOperation (str operation) (obj fields) metaData).error = some documentError ↔
        (getField self.identifier fields = undefined ∧
          (hasField self.identifier fields = true ∨ isInheritedName self.identifier = false))) ∧
      ((self.queueOperation (str operation) (obj fields) metaData).error = some documentError →
        (self.queueOperation (str operation) (obj fields) metaData).state = self ∧
        (self.queueOperation (str operation) (obj fields) metaData).state.queue = self.queue) ∧
      ((self.queueOperation (str operation) (obj fields) metaData).error ≠ some documentError →
        (self.queueOperation (str operation) (obj fields) metaData).error = none)) := by
  have hv : validateOperation (str operation) = Except.ok () :=
    validateOperation_supported _ (by rcases hop with h | h | h <;> simp [h])
  refine ⟨?_, ?_⟩
  · intro document hdoc
    rcases hdoc with h | h <;> subst h <;>
      simp [OpQue.queueOperation, hv, validateDocument]
  · intro fields
    by_cases hid : getProperty self.identifier fields = undefined
    · have hout : self.queueOperation (str operation) (obj fields) metaData
          = { error := some documentError, state := self } := by
        unfold OpQue.queueOperation
        rw [hv]
        simp [validateDocument, property, hid, Lodash.isUndefined]
      rw [hout]
      exact ⟨⟨fun _ => (getProperty_eq_undefined _ _).1 hid, fun _ => rfl⟩,
        fun _ => ⟨rfl, rfl⟩, fun h => absurd rfl h⟩
    · have hok : validateDocument (obj fields) self.identifier = Except.ok () := by
        simp [validateDocument, property, isUndefined_eq_false hid]
      have herr : (self.queueOperation (str operation) (obj fields) metaData).error = none := by
        unfold OpQue.queueOperation
        rw [hv]
        simp [hok]
      rw [herr]
      exact ⟨⟨fun h => Option.noConfusion h,
          fun h => absurd ((getProperty_eq_undefined _ _).2 h) hid⟩,
        fun h => Option.noConfusion h, fun _ => rfl⟩

/-- Witness of C10, the test `should throw an error if you pass an illegal
document to queueOperation`: a CREATE of `{}` throws the document error and
changes nothing. -/
theorem C10_document_error_iff_identifier_reads_undefined_witness :
    (CREATE = CREATE ∨ CREATE = UPDATE ∨ CREATE = DELETE) ∧
    (getOpque.queueOperation (str CREATE) (obj []) undefined).error
      = some "the document you are trying to queue does not have the identifier you specified" ∧
    (getOpque.queueOperation (str CREATE) (obj []) undefined).state = getOpque :=
  ⟨Or.inl rfl,
    ((C10_document_error_iff_identifier_reads_undefined getOpque CREATE undefined
      (Or.inl rfl)).2 []).1.2 ⟨rfl, Or.inr rfl⟩,
    (((C10_document_error_iff_identifier_reads_undefined getOpque CREATE undefined
      (Or.inl rfl)).2 []).2.1
      (((C10_document_error_iff_identifier_reads_undefined getOpque CREATE undefined
        (Or.inl rfl)).2 []).1.2 ⟨rfl, Or.inr rfl⟩)).1⟩

/-! ## Flushing and host time -/

theorem flush_of_empty (self : OpQue) (h : self.queue = []) : self.flush = self := by
  simp [OpQue.flush, Lodash.isEmpty, h]

theorem flush_of_nonempty (self : OpQue) (h : self.queue ≠ []) :
    self.flush =
      { self.log "debug" "flushing the queue" with
        queue := [], flushCalls := self.flushCalls ++ [self.queue] } := by
  cases hq : self.queue with
  | nil => exact absurd hq h
  | cons e rest => simp [OpQue.flush, Lodash.isEmpty, Lodash.clone, OpQue.log, hq]

/-- A property of instances that every expiry keeps is kept by one unit of
host time. -/
theorem tick1_keeps (P : OpQue → Prop) (hclock : ∀ s : OpQue, P s → P s.advanceClock)
    (hexpire : ∀ (s : OpQue) (handle : Nat), P s → P (s.expire handle))
    (self : OpQue) (h : P self) : P self.tick1 := by
  unfold OpQue.tick1
  simp only []
  have hstart := hclock self h
  generalize self.advanceClock = start at hstart ⊢
  generalize List.filter _ _ = due
  induction due generalizing start with
  | nil => exact hstart
  | cons t rest ih => exact ih _ (hexpire start t.id hstart)

/-- A property of instances that every expiry keeps is kept while host time
passes. -/
theorem tick_keeps (P : OpQue → Prop) (hclock : ∀ s : OpQue, P s → P s.advanceClock)
    (hexpire : ∀ (s : OpQue) (handle : Nat), P s → P (s.expire handle))
    (ms : Nat) (self : OpQue) (h : P self) : P (self.tick ms) := by
  induction ms generalizing self with
  | zero => exact h
  | succ n ih => exact ih _ (tick1_keeps P hclock hexpire self h)

theorem expire_of_empty (self : OpQue) (handle : Nat) (h : self.queue = []) :
    (self.expire handle).queue = [] ∧ (self.expire handle).flushCalls = self.flushCalls := by
  unfold OpQue.expire
  rw [flush_of_empty self h]
  exact ⟨h, rfl⟩

theorem tick_of_empty (self : OpQue) (ms : Nat) (h : self.queue = []) :
    (self.tick ms).queue = [] ∧ (self.tick ms).flushCalls = self.flushCalls := by
  apply tick_keeps (fun s => s.queue = [] ∧ s.flushCalls = self.flushCalls)
  · intro s hs; exact hs
  · intro s handle hs
    have := expire_of_empty s handle hs.1
    exact ⟨this.1, this.2.trans hs.2⟩
  · exact ⟨h, rfl⟩

theorem construct_ok (opts : JsVal) (clock nextId : Nat) (self : OpQue)
    (h : construct opts clock nextId = Except.ok self) :
    self.queue = [] ∧ self.flushCalls = [] ∧ self.flushTime = member opts "flushTime" ∧
    self.clock = clock ∧
    self.intervalId = nextId ∧ self.nextIntervalId = nextId + 1 ∧
    self.intervals =
      [{ id := nextId, period := toPeriod (member opts "flushTime"),
         due := clock + toPeriod (member opts "flushTime") }] := by
  unfold construct at h
  split at h
  · exact Except.noConfusion h
  · simp only [Except.ok.injEq] at h
    subst h
    simp [OpQue.setInterval]

/-- C11: `flush()` on a non-empty queue invokes the flush callback once, with
the queue as it was (every key with the record stored under it), and leaves
the live queue empty. -/
theorem C11_flush_hands_over_queue (self : OpQue) (hne : self.queue ≠ []) :
    self.flush.flushCalls = self.flushCalls ++ [self.queue] ∧
    self.flush.queue = [] ∧
    self.flush.flushCalls.length = self.flushCalls.length + 1 := by
  rw [flush_of_nonempty self hne]
  simp

/-- Witness of C11, after the test `should call the flush callback with the
proper queue`: three queued documents are handed over in one batch. -/
theorem C11_flush_hands_over_queue_witness :
    (getOpque.submitAll [(CREATE, obj [("_id", str "createMe")]),
      (UPDATE, obj [("_id", str "updateMe")]),
      (DELETE, obj [("_id", str "deleteMe")])]).queue ≠ [] ∧
    (getOpque.submitAll [(CREATE, obj [("_id", str "createMe")]),
      (UPDATE, obj [("_id", str "updateMe")]),
      (DELETE, obj [("_id", str "deleteMe")])]).flush.flushCalls
      = [[("createMe", obj [("operation", str CREATE), ("doc", obj [("_id", str "createMe")])]),
          ("updateMe", obj [("operation", str UPDATE), ("doc", obj [("_id", str "updateMe")])]),
          ("deleteMe", obj [("operation", str DELETE), ("doc", obj [("_id", str "deleteMe")])])]] ∧
    (getOpque.submitAll [(CREATE, obj [("_id", str "createMe")]),
      (UPDATE, obj [("_id", str "updateMe")]),
      (DELETE, obj [("_id", str "deleteMe")])]).flush.queue = [] :=
  have h := C11_flush_hands_over_queue
    (getOpque.submitAll [(CREATE, obj [("_id", str "createMe")]),
      (UPDATE, obj [("_id", str "updateMe")]),
      (DELETE, obj [("_id", str "deleteMe")])])
    (fun e => List.noConfusion (show (_ :: _ : Fields) = [] from e))
  ⟨fun e => List.noConfusion (show (_ :: _ : Fields) = [] from e), h.1.trans rfl, h.2.1⟩

/-- C12: on an empty queue `flush()` changes nothing and so does not invoke the
flush callback, and however long host time runs on an instance with an empty
queue, such as a new one, no interval expiry invokes it either. -/
theorem C12_empty_queue_is_never_flushed (self : OpQue) (hempty : self.queue = []) :
    self.flush = self ∧
    (∀ ms, (self.tick ms).flushCalls = self.flushCalls ∧ (self.tick ms).queue = []) ∧
    (∀ handle, (self.expire handle).flushCalls = self.flushCalls ∧
      (self.expire handle).queue = []) := by
  refine ⟨flush_of_empty self hempty, fun ms => ?_, fun handle => ?_⟩
  · exact ⟨(tick_of_empty self ms hempty).2, (tick_of_empty self ms hempty).1⟩
  · exact ⟨(expire_of_empty self handle hempty).2, (expire_of_empty self handle hempty).1⟩

/-- Witness of C12, the test `should not call the flush callback with an empty
queue`: 10000 units after construction the callback has not been invoked. -/
theorem C12_empty_queue_is_never_flushed_witness :
    getOpque.queue = [] ∧ (getOpque.tick 10000).flushCalls = [] :=
  ⟨rfl, ((C12_empty_queue_is_never_flushed getOpque rfl).2.1 10000).1⟩

/-! ## What `queueOperation` leaves alone -/

theorem queueDoc_frame (self : OpQue) (operation metaData : JsVal) :
    (self._queueDoc operation metaData).flushCalls = self.flushCalls ∧
    (self._queueDoc operation metaData).flushTime = self.flushTime ∧
    (self._queueDoc operation metaData).clock = self.clock ∧
    (self._queueDoc operation metaData).intervalId = self.intervalId ∧
    (self._queueDoc operation metaData).nextIntervalId = self.nextIntervalId ∧
    (self._queueDoc operation metaData).intervals = self.intervals :=
  ⟨rfl, rfl, rfl, rfl, rfl, rfl⟩

theorem queueCreate_frame (self : OpQue) (doc metaData : JsVal) :
    (self._queueCreate doc metaData).flushCalls = self.flushCalls ∧
    (self._queueCreate doc metaData).flushTime = self.flushTime ∧
    (self._queueCreate doc metaData).clock = self.clock ∧
    (self._queueCreate doc metaData).intervalId = self.intervalId ∧
    (self._queueCreate doc metaData).nextIntervalId = self.nextIntervalId ∧
    (self._queueCreate doc metaData).intervals = self.intervals := by
  unfold OpQue._queueCreate
  simp only []
  split <;> exact ⟨rfl, rfl, rfl, rfl, rfl, rfl⟩

theorem queueUpdate_frame (self : OpQue) (doc metaData : JsVal) :
    (self._queueUpdate doc metaData).flushCalls = self.flushCalls ∧
    (self._queueUpdate doc metaData).flushTime = self.flushTime ∧
    (self._queueUpdate doc metaData).clock = self.clock ∧
    (self._queueUpdate doc metaData).intervalId = self.intervalId ∧
    (self._queueUpdate doc metaData).nextIntervalId = self.nextIntervalId ∧
    (self._queueUpdate doc metaData).intervals = self.intervals := by
  unfold OpQue._queueUpdate
  simp only []
  split
  · split <;> exact ⟨rfl, rfl, rfl, rfl, rfl, rfl⟩
  · exact ⟨rfl, rfl, rfl, rfl, rfl, rfl⟩

theorem queueDelete_frame (self : OpQue) (doc metaData : JsVal) :
    (self._queueDelete doc metaData).flushCalls = self.flushCalls ∧
    (self._queueDelete doc metaData).flushTime = self.flushTime ∧
    (self._queueDelete doc metaData).clock = self.clock ∧
    (self._queueDelete doc metaData).intervalId = self.intervalId ∧
    (self._queueDelete doc metaData).nextIntervalId = self.nextIntervalId ∧
    (self._queueDelete doc metaData).intervals = self.intervals := by
  unfold OpQue._queueDelete
  simp only []
  split <;> exact ⟨rfl, rfl, rfl, rfl, rfl, rfl⟩

/-- The three ways a call of `queueOperation` can end: it throws and leaves
the instance as it was, or it ran one of the three methods and reset the
interval. -/
theorem queueOperation_cases (self : OpQue) (operation document metaData : JsVal) :
    ((self.queueOperation operation document metaData).error ≠ none ∧
      (self.queueOperation operation document metaData).state = self) ∨
    ((self.queueOperation operation document metaData).error = none ∧
      ((self.queueOperation operation document metaData).state
          = (self._queueCreate document metaData)._resetFlushInterval ∨
        (self.queueOperation operation document metaData).state
          = (self._queueUpdate document metaData)._resetFlushInterval ∨
        (self.queueOperation operation document metaData).state
          = (self._queueDelete document metaData)._resetFlushInterval)) := by
  by_cases hop : operation = str CREATE ∨ operation = str UPDATE ∨ operation = str DELETE
  · rcases validateDocument_cases document self.identifier with hv | hv | hv
    · right
      rcases hop with h | h | h <;> subst h
      · rw [queueOperation_create self _ _ hv]; exact ⟨rfl, Or.inl rfl⟩
      · rw [queueOperation_update self _ _ hv]; exact ⟨rfl, Or.inr (Or.inl rfl)⟩
      · rw [queueOperation_delete self _ _ hv]; exact ⟨rfl, Or.inr (Or.inr rfl)⟩
    · left
      unfold OpQue.queueOperation
      rw [validateOperation_supported operation hop, hv]
      exact ⟨fun e => Option.noConfusion e, rfl⟩
    · left
      unfold OpQue.queueOperation
      rw [validateOperation_supported operation hop, hv]
      exact ⟨fun e => Option.noConfusion e, rfl⟩
  · left
    unfold OpQue.queueOperation
    rw [validateOperation_unsupported operation hop]
    exact ⟨fun e => Option.noConfusion e, rfl⟩

theorem queueOperation_flushCalls (self : OpQue) (operation document metaData : JsVal) :
    (self.queueOperation operation document metaData).state.flushCalls = self.flushCalls := by
  rcases queueOperation_cases self operation document metaData with ⟨_, h⟩ | ⟨_, h | h | h⟩ <;>
    rw [h]
  · exact (queueCreate_frame self document metaData).1
  · exact (queueUpdate_frame self document metaData).1
  · exact (queueDelete_frame self document metaData).1

theorem queueOperation_identifier (self : OpQue) (operation document metaData : JsVal) :
    (self.queueOperation operation document metaData).state.identifier = self.identifier := by
  rcases queueOperation_cases self operation document metaData with ⟨_, h⟩ | ⟨_, h | h | h⟩ <;>
    rw [h]
  · exact queueCreate_identifier self document metaData
  · exact queueUpdate_identifier self document metaData
  · exact queueDelete_identifier self document metaData

theorem queueOperation_flushTime (self : OpQue) (operation document metaData : JsVal) :
    (self.queueOperation operation document metaData).state.flushTime = self.flushTime := by
  rcases queueOperation_cases self operation document metaData with ⟨_, h⟩ | ⟨_, h | h | h⟩ <;>
    rw [h]
  · exact (queueCreate_frame self document metaData).2.1
  · exact (queueUpdate_frame self document metaData).2.1
  · exact (queueDelete_frame self document metaData).2.1

/-- The queue after a call without metadata for an identifier with no pending
record, under a key the queue inherits nothing for: the record of the call is
written under the key of the identifier. -/
theorem queueOperation_queue_none (self : OpQue) (kind : String) (fields : Fields)
    (hk : kind = CREATE ∨ kind = UPDATE ∨ kind = DELETE)
    (hid : getField self.identifier fields ≠ undefined)
    (hnone : Lodash.isObject (self.currentOperation (obj fields)) = false)
    (hname : hasField (toPropertyKey (getField self.identifier fields)) self.queue = true ∨
      isInheritedName (toPropertyKey (getField self.identifier fields)) = false) :
    (self.queueOperation (str kind) (obj fields) undefined).state.queue =
      setField (toPropertyKey (getField self.identifier fields))
        (obj [("operation", str kind), ("doc", obj fields)]) self.queue := by
  have hv := validateDocument_obj fields self.identifier hid
  have hnot : (Lodash.isObject (self.currentOperation (obj fields))
      && strictEqStr (member (self.currentOperation (obj fields)) "operation") CREATE) = false := by
    rw [hnone]; rfl
  rcases hk with h | h | h <;> subst h
  · rw [queueOperation_create self _ _ hv]
    simp [queueCreate_queue self _ _ hid, Lodash.isUndefined]
  · rw [queueOperation_update self _ _ hv]
    simp [queueUpdate_queue_none self _ _ hid hnone hname, Lodash.isUndefined]
  · rw [queueOperation_delete self _ _ hv]
    simp [queueDelete_queue_other self _ _ hid hnot, Lodash.isUndefined]

theorem hasField_append (key : String) (front back : Fields) :
    hasField key (front ++ back) = (hasField key front || hasField key back) := by
  induction front with
  | nil => simp [hasField]
  | cons p rest ih =>
    obtain ⟨k, v⟩ := p
    by_cases hk : k = key
    · simp [hasField, hk]
    · simp [hasField, hk, ih]

/-- Submissions with pairwise distinct keys, none of them in the queue yet and
none of them the name of an inherited property, are appended to the queue one
record each. -/
theorem submitAll_distinct (subs : List (String × Fields)) (self : OpQue)
    (hkinds : ∀ s ∈ subs, s.1 = CREATE ∨ s.1 = UPDATE ∨ s.1 = DELETE)
    (hids : ∀ s ∈ subs, getField self.identifier s.2 ≠ undefined)
    (hnames : ∀ s ∈ subs,
      isInheritedName (toPropertyKey (getField self.identifier s.2)) = false)
    (hfresh : ∀ s ∈ subs,
      hasField (toPropertyKey (getField self.identifier s.2)) self.queue = false)
    (hdistinct : (keysOf (batchOf self.identifier subs)).Nodup) :
    (self.submitAll (subs.map (fun s => (s.1, obj s.2)))).queue
      = self.queue ++ batchOf self.identifier subs ∧
    (self.submitAll (subs.map (fun s => (s.1, obj s.2)))).flushCalls = self.flushCalls := by
  induction subs generalizing self with
  | nil => simp [OpQue.submitAll, batchOf]
  | cons s rest ih =>
    obtain ⟨kind, fields⟩ := s
    have hk := hkinds (kind, fields) (List.mem_cons_self _ _)
    have hid := hids (kind, fields) (List.mem_cons_self _ _)
    have hf := hfresh (kind, fields) (List.mem_cons_self _ _)
    simp only [batchOf, keysOf, List.map_cons, List.nodup_cons, List.map_map] at hdistinct
    have hnone : Lodash.isObject (self.currentOperation (obj fields)) = false := by
      simp only [OpQue.currentOperation, member]
      rw [hasField_false_getField hf]; rfl
    have hq := queueOperation_queue_none self kind fields hk hid hnone
      (Or.inr (hnames (kind, fields) (List.mem_cons_self _ _)))
    rw [setField_absent _ _ _ hf] at hq
    have hi := queueOperation_identifier self (str kind) (obj fields) undefined
    have hc := queueOperation_flushCalls self (str kind) (obj fields) undefined
    simp only [List.map_cons, OpQue.submitAll]
    have := ih (self.queueOperation (str kind) (obj fields) undefined).state
      (fun s hs => hkinds s (List.mem_cons_of_mem _ hs))
      (fun s hs => by rw [hi]; exact hids s (List.mem_cons_of_mem _ hs))
      (fun s hs => by rw [hi]; exact hnames s (List.mem_cons_of_mem _ hs))
      (fun s hs => by
        rw [hi, hq, hasField_append, hfresh s (List.mem_cons_of_mem _ hs)]
        simp only [hasField, Bool.false_or, Bool.or_false]
        rw [if_neg]
        intro e
        apply hdistinct.1
        simp only [List.mem_map, Function.comp]
        exact ⟨s, hs, e.symm⟩)
      (by rw [hi]; simpa [batchOf, keysOf] using hdistinct.2)
    rw [this.1, this.2, hq, hi, hc]
    simp [batchOf]

/-- C13 fails as stated: the identifiers `1` and `'1'` are distinct, yet they
are one property key, so CREATE `{_id: 1}` followed by UPDATE `{_id: '1'}` and
a flush hands over a batch with a single entry. -/
theorem C13_distinct_identifiers_may_share_a_key :
    num 1 ≠ str "1" ∧
    (getOpque.submitAll [(CREATE, obj [("_id", num 1)]),
      (UPDATE, obj [("_id", str "1")])]).flush.flushCalls
      = [[("1", obj [("operation", str CREATE), ("doc", obj [("_id", str "1")])])]] ∧
    (getOpque.submitAll [(CREATE, obj [("_id", num 1)]),
      (UPDATE, obj [("_id", str "1")])]).flush.queue = [] :=
  ⟨fun e => JsVal.noConfusion e, rfl, rfl⟩

/-- C13 as amended: submissions of supported kinds whose identifiers are
values the runtime represents exactly, have pairwise distinct property keys
and are under no name the queue inherits from `Object.prototype`, made on an
empty queue, leave one record per submission, under the key of its identifier
and with its kind and document; a flush then hands exactly these to the
callback, in one batch, and empties the queue. -/
theorem C13_distinct_keys_are_flushed_together (self : OpQue) (subs : List (String × Fields))
    (hempty : self.queue = [])
    (hne : subs ≠ [])
    (hkinds : ∀ s ∈ subs, s.1 = CREATE ∨ s.1 = UPDATE ∨ s.1 = DELETE)
    (hids : ∀ s ∈ subs, getField self.identifier s.2 ≠ undefined)
    (_hexact : ∀ s ∈ subs, representable (getField self.identifier s.2) = true)
    (hnames : ∀ s ∈ subs,
      isInheritedName (toPropertyKey (getField self.identifier s.2)) = false)
    (hdistinct : (subs.map (fun s => toPropertyKey (getField self.identifier s.2))).Nodup) :
    (self.submitAll (subs.map (fun s => (s.1, obj s.2)))).queue = batchOf self.identifier subs ∧
    (batchOf self.identifier subs).length = subs.length ∧
    (self.submitAll (subs.map (fun s => (s.1, obj s.2)))).flush.flushCalls
      = self.flushCalls ++ [batchOf self.identifier subs] ∧
    (self.submitAll (subs.map (fun s => (s.1, obj s.2)))).flush.queue = [] := by
  have h := submitAll_distinct subs self hkinds hids hnames
    (fun s _ => by rw [hempty]; rfl)
    (by simpa [batchOf, keysOf, Function.comp] using hdistinct)
  rw [hempty, List.nil_append] at h
  have hq : (self.submitAll (subs.map (fun s => (s.1, obj s.2)))).queue ≠ [] := by
    rw [h.1]
    cases subs with
    | nil => exact absurd rfl hne
    | cons s rest => simp [batchOf]
  rw [flush_of_nonempty _ hq]
  refine ⟨h.1, by simp [batchOf], ?_, rfl⟩
  simp only [h.1, h.2]

/-- Witness of C13, the end-to-end example: CREATE `createMe`, UPDATE
`updateMe`, DELETE `deleteMe`, then a flush. -/
theorem C13_distinct_keys_are_flushed_together_witness :
    (getOpque.submitAll [(CREATE, obj [("_id", str "createMe")]),
      (UPDATE, obj [("_id", str "updateMe")]),
      (DELETE, obj [("_id", str "deleteMe")])]).flush.flushCalls
      = [[("createMe", obj [("operation", str CREATE), ("doc", obj [("_id", str "createMe")])]),
          ("updateMe", obj [("operation", str UPDATE), ("doc", obj [("_id", str "updateMe")])]),
          ("deleteMe", obj [("operation", str DELETE), ("doc", obj [("_id", str "deleteMe")])])]] ∧
    (getOpque.submitAll [(CREATE, obj [("_id", str "createMe")]),
      (UPDATE, obj [("_id", str "updateMe")]),
      (DELETE, obj [("_id", str "deleteMe")])]).flush.queue = [] :=
  have h := C13_distinct_keys_are_flushed_together getOpque
    [(CREATE, [("_id", str "createMe")]), (UPDATE, [("_id", str "updateMe")]),
      (DELETE, [("_id", str "deleteMe")])]
    rfl (fun e => List.noConfusion e)
    (by
      intro s hs
      simp only [List.mem_cons, List.mem_singleton, List.not_mem_nil, or_false] at hs
      rcases hs with h | h | h <;> subst h <;> simp)
    (by
      intro s hs
      simp only [List.mem_cons, List.mem_singleton, List.not_mem_nil, or_false] at hs
      rcases hs with h | h | h <;> subst h <;> exact fun e => JsVal.noConfusion e)
    (by
      intro s hs
      simp only [List.mem_cons, List.mem_singleton, List.not_mem_nil, or_false] at hs
      rcases hs with h | h | h <;> subst h <;> rfl)
    (by
      intro s hs
      simp only [List.mem_cons, List.mem_singleton, List.not_mem_nil, or_false] at hs
      rcases hs with h | h | h <;> subst h <;> decide)
    (by decide)
  ⟨h.2.2.1, h.2.2.2⟩

/-! ## An instance with its one interval -/

theorem tick_succ (ms : Nat) (self : OpQue) : self.tick (ms + 1) = (self.tick1).tick ms := rfl

theorem tick_add (a b : Nat) (self : OpQue) : self.tick (a + b) = (self.tick a).tick b := by
  induction a generalizing self with
  | zero => simp [OpQue.tick]
  | succ n ih =>
    rw [Nat.succ_add, tick_succ, tick_succ, ih]

/-- One unit of time on an instance whose only interval is not due yet: only
the clock moves. -/
theorem tick1_before_due (self : OpQue) (t : Interval) (hone : self.intervals = [t])
    (hdue : self.clock + 1 < t.due) : self.tick1 = self.advanceClock := by
  unfold OpQue.tick1
  have hfilter : List.filter (fun t => decide (t.due ≤ self.advanceClock.clock))
      self.advanceClock.intervals = [] := by
    show List.filter (fun t => decide (t.due ≤ self.clock + 1)) self.intervals = []
    rw [hone]
    have hnot : decide (t.due ≤ self.clock + 1) = false := by
      rw [decide_eq_false_iff_not]; omega
    simp only [List.filter, hnot]
  simp only [hfilter, List.foldl]

/-- One unit of time on an instance whose only interval falls due: the
interval expires. -/
theorem tick1_at_due (self : OpQue) (t : Interval) (hone : self.intervals = [t])
    (hdue : t.due ≤ self.clock + 1) : self.tick1 = self.advanceClock.expire t.id := by
  unfold OpQue.tick1
  have hfilter : List.filter (fun t => decide (t.due ≤ self.advanceClock.clock))
      self.advanceClock.intervals = [t] := by
    show List.filter (fun t => decide (t.due ≤ self.clock + 1)) self.intervals = [t]
    rw [hone]
    have hyes : decide (t.due ≤ self.clock + 1) = true := by
      rw [decide_eq_true_iff]; exact hdue
    simp only [List.filter, hyes]
  simp only [hfilter, List.foldl]

/-- While the only interval of an instance is not due, time passing moves
the clock and nothing else. -/
theorem tick_before_due (ms : Nat) (self : OpQue) (t : Interval) (hone : self.intervals = [t])
    (hdue : self.clock + ms < t.due) :
    self.tick ms = OpQue.mk self.flushTime self.identifier self.queue self.intervalId
      (self.clock + ms) self.nextIntervalId self.intervals self.flushCalls self.logCalls := by
  induction ms generalizing self with
  | zero => rfl
  | succ n ih =>
    rw [tick_succ, tick1_before_due self t hone (by omega)]
    rw [ih self.advanceClock hone (by show self.clock + 1 + n < t.due; omega)]
    simp only [OpQue.advanceClock, OpQue.mk.injEq, and_true, true_and]
    omega

/-- When the only interval of an instance falls due exactly after `ms + 1`
units, what that time does is to move the clock there and run `flush` once. -/
theorem tick_to_due (ms : Nat) (self : OpQue) (t : Interval) (hone : self.intervals = [t])
    (hdue : t.due = self.clock + (ms + 1)) :
    (self.queue = [] → (self.tick (ms + 1)).flushCalls = self.flushCalls) ∧
    (self.queue ≠ [] → (self.tick (ms + 1)).flushCalls = self.flushCalls ++ [self.queue]) ∧
    (self.tick (ms + 1)).queue = [] := by
  rw [tick_add, tick_before_due ms self t hone (by omega)]
  have h1 : ∀ s : OpQue, s.tick 1 = s.tick1 := fun s => rfl
  have key := tick1_at_due (OpQue.mk self.flushTime self.identifier self.queue self.intervalId
    (self.clock + ms) self.nextIntervalId self.intervals self.flushCalls self.logCalls) t hone
    (by show t.due ≤ self.clock + ms + 1; omega)
  rw [h1, key]
  unfold OpQue.expire
  by_cases hq : self.queue = []
  · rw [flush_of_empty _ (by exact hq)]
    simp [OpQue.advanceClock, hq]
  · rw [flush_of_nonempty _ (by exact hq)]
    simp [OpQue.advanceClock, hq]

/-- A successful call of `queueOperation` on an instance whose only interval
is the one of its handle leaves the new interval as the only one, due one
period after the call. -/
theorem resetFlushInterval_armed (self : OpQue) (t : Interval) (hone : self.intervals = [t])
    (hid : t.id = self.intervalId) :
    self._resetFlushInterval.intervals =
      [{ id := self.nextIntervalId, period := toPeriod self.flushTime,
         due := self.clock + toPeriod self.flushTime }] ∧
    self._resetFlushInterval.intervalId = self.nextIntervalId ∧
    self._resetFlushInterval.nextIntervalId = self.nextIntervalId + 1 ∧
    self._resetFlushInterval.clock = self.clock := by
  simp [OpQue._resetFlushInterval, OpQue.setInterval, OpQue.clearInterval, hone, hid, List.filter]

theorem toPeriod_pos (delay : JsVal) : 1 ≤ toPeriod delay := by
  unfold toPeriod
  simp only []
  split
  · omega
  · exact Nat.le_refl 1

theorem construct_armed (opts : JsVal) (clock nextId : Nat) (self : OpQue)
    (h : construct opts clock nextId = Except.ok self) : self.armed := by
  obtain ⟨_, _, hft, hclock, hid, _, hint⟩ := construct_ok opts clock nextId self h
  unfold OpQue.armed
  rw [hint, hft, hclock, hid]

/-- A submission that does not throw, made before the interval of an armed
instance is due, leaves the instance armed from the time of the call, with
the callback not invoked. -/
theorem spaced_submission_armed (self : OpQue) (gap : Nat) (kind : String) (fields : Fields)
    (harmed : self.armed) (hgap : gap < toPeriod self.flushTime)
    (hk : kind = CREATE ∨ kind = UPDATE ∨ kind = DELETE)
    (hid : getField self.identifier fields ≠ undefined) :
    ((self.tick gap).queueOperation (str kind) (obj fields) undefined).state.armed ∧
    ((self.tick gap).queueOperation (str kind) (obj fields) undefined).state.flushCalls
      = self.flushCalls ∧
    ((self.tick gap).queueOperation (str kind) (obj fields) undefined).state.flushTime
      = self.flushTime ∧
    ((self.tick gap).queueOperation (str kind) (obj fields) undefined).state.identifier
      = self.identifier := by
  unfold OpQue.armed at harmed
  rw [tick_before_due gap self _ harmed (by show self.clock + gap < self.clock + _; omega)]
  generalize hs : OpQue.mk self.flushTime self.identifier self.queue self.intervalId
    (self.clock + gap) self.nextIntervalId self.intervals self.flushCalls self.logCalls = later
  have hft : later.flushTime = self.flushTime := by rw [← hs]
  have hident : later.identifier = self.identifier := by rw [← hs]
  have hcalls : later.flushCalls = self.flushCalls := by rw [← hs]
  have hint : later.intervals = self.intervals := by rw [← hs]
  have hhandle : later.intervalId = self.intervalId := by rw [← hs]
  refine ⟨?_, by rw [queueOperation_flushCalls, hcalls],
    by rw [queueOperation_flushTime, hft], by rw [queueOperation_identifier, hident]⟩
  have hv := validateDocument_obj fields later.identifier (by rw [hident]; exact hid)
  have harm : ∀ queued : OpQue, queued.flushTime = later.flushTime →
      queued.intervalId = later.intervalId → queued.intervals = later.intervals →
      queued._resetFlushInterval.armed := by
    intro queued h1 h2 h3
    have hr := resetFlushInterval_armed queued _ (by rw [h3, hint]; exact harmed)
      (by show self.intervalId = queued.intervalId; rw [h2, hhandle])
    unfold OpQue.armed
    rw [hr.1, hr.2.1, hr.2.2.2]
    rfl
  rcases hk with h | h | h <;> subst h
  · rw [queueOperation_create later _ _ hv]
    have hf := queueCreate_frame later (obj fields) undefined
    exact harm _ hf.2.1 hf.2.2.2.1 hf.2.2.2.2.2
  · rw [queueOperation_update later _ _ hv]
    have hf := queueUpdate_frame later (obj fields) undefined
    exact harm _ hf.2.1 hf.2.2.2.1 hf.2.2.2.2.2
  · rw [queueOperation_delete later _ _ hv]
    have hf := queueDelete_frame later (obj fields) undefined
    exact harm _ hf.2.1 hf.2.2.2.1 hf.2.2.2.2.2

/-- Submissions that do not throw, each made before the interval armed by the
one before it is due, leave the instance armed from the time of the last one,
with the callback not invoked. -/
theorem submitSpaced_armed (subs : List (Nat × String × Fields)) (self : OpQue)
    (harmed : self.armed)
    (hgaps : ∀ s ∈ subs, s.1 < toPeriod self.flushTime)
    (hkinds : ∀ s ∈ subs, s.2.1 = CREATE ∨ s.2.1 = UPDATE ∨ s.2.1 = DELETE)
    (hids : ∀ s ∈ subs, getField self.identifier s.2.2 ≠ undefined) :
    (self.submitSpaced (subs.map (fun s => (s.1, s.2.1, obj s.2.2)))).armed ∧
    (self.submitSpaced (subs.map (fun s => (s.1, s.2.1, obj s.2.2)))).flushCalls
      = self.flushCalls ∧
    (self.submitSpaced (subs.map (fun s => (s.1, s.2.1, obj s.2.2)))).flushTime
      = self.flushTime := by
  induction subs generalizing self with
  | nil => exact ⟨harmed, rfl, rfl⟩
  | cons s rest ih =>
    obtain ⟨gap, kind, fields⟩ := s
    have h := spaced_submission_armed self gap kind fields harmed
      (hgaps _ (List.mem_cons_self _ _)) (hkinds _ (List.mem_cons_self _ _))
      (hids _ (List.mem_cons_self _ _))
    simp only [List.map_cons, OpQue.submitSpaced]
    have := ih _ h.1
      (fun s hs => by rw [h.2.2.1]; exact hgaps s (List.mem_cons_of_mem _ hs))
      (fun s hs => hkinds s (List.mem_cons_of_mem _ hs))
      (fun s hs => by rw [h.2.2.2]; exact hids s (List.mem_cons_of_mem _ hs))
    exact ⟨this.1, this.2.1.trans h.2.1, this.2.2.trans h.2.2.1⟩

/-- The queue a call of `queueOperation` leaves, and whether the call throws,
depend on the instance only through its queue and its identifier. -/
theorem queueOperation_queue_congr (a b : OpQue) (operation document metaData : JsVal)
    (hq : a.queue = b.queue) (hi : a.identifier = b.identifier) :
    (a.queueOperation operation document metaData).state.queue
      = (b.queueOperation operation document metaData).state.queue ∧
    (a.queueOperation operation document metaData).error
      = (b.queueOperation operation document metaData).error := by
  have hcur : a.queued document = b.queued document := by
    simp only [OpQue.queued, hq, hi]
  by_cases hop : operation = str CREATE ∨ operation = str UPDATE ∨ operation = str DELETE
  · rcases validateDocument_cases document a.identifier with hv | hv | hv
    · have hv2 := hv
      rw [hi] at hv2
      rcases hop with h | h | h <;> subst h
      · rw [queueOperation_create a _ _ hv, queueOperation_create b _ _ hv2]
        simp only [resetFlushInterval_queue, queueCreate_stores, hq, hi, and_self]
      · rw [queueOperation_update a _ _ hv, queueOperation_update b _ _ hv2]
        simp only [resetFlushInterval_queue, and_true]
        cases hobj : Lodash.isObject (a.queued document)
        · rw [queueUpdate_stores a _ _ hobj, queueUpdate_stores b _ _ (hcur ▸ hobj),
            hq, hi]
        · cases hdel : strictEqStr (member (a.queued document) "operation") DELETE
          · rw [queueUpdate_merges a _ _ hobj hdel,
              queueUpdate_merges b _ _ (hcur ▸ hobj) (hcur ▸ hdel), hq, hi, hcur]
          · rw [queueUpdate_warns a _ _ hobj hdel,
              queueUpdate_warns b _ _ (hcur ▸ hobj) (hcur ▸ hdel), hq]
      · rw [queueOperation_delete a _ _ hv, queueOperation_delete b _ _ hv2]
        simp only [resetFlushInterval_queue, and_true]
        cases hc : (Lodash.isObject (a.queued document)
            && strictEqStr (member (a.queued document) "operation") CREATE)
        · rw [queueDelete_stores a _ _ hc, queueDelete_stores b _ _ (hcur ▸ hc),
            hq, hi]
        · have hc2 := hc
          rw [Bool.and_eq_true] at hc2
          rw [queueDelete_omits a _ _ hc2.1 hc2.2,
            queueDelete_omits b _ _ (hcur ▸ hc2.1) (hcur ▸ hc2.2), hi]
    · have hv2 := hv
      rw [hi] at hv2
      unfold OpQue.queueOperation
      rw [validateOperation_supported operation hop, hv, hv2]
      exact ⟨hq, rfl⟩
    · have hv2 := hv
      rw [hi] at hv2
      unfold OpQue.queueOperation
      rw [validateOperation_supported operation hop, hv, hv2]
      exact ⟨hq, rfl⟩
  · unfold OpQue.queueOperation
    rw [validateOperation_unsupported operation hop]
    exact ⟨hq, rfl⟩

/-- While no interval expires, spreading submissions over time does not
change the queue they leave. -/
theorem submitSpaced_queue (subs : List (Nat × String × Fields)) (self plain : OpQue)
    (harmed : self.armed)
    (hgaps : ∀ s ∈ subs, s.1 < toPeriod self.flushTime)
    (hkinds : ∀ s ∈ subs, s.2.1 = CREATE ∨ s.2.1 = UPDATE ∨ s.2.1 = DELETE)
    (hids : ∀ s ∈ subs, getField self.identifier s.2.2 ≠ undefined)
    (hq : self.queue = plain.queue) (hi : self.identifier = plain.identifier) :
    (self.submitSpaced (subs.map (fun s => (s.1, s.2.1, obj s.2.2)))).queue
      = (plain.submitAll (subs.map (fun s => (s.2.1, obj s.2.2)))).queue := by
  induction subs generalizing self plain with
  | nil => exact hq
  | cons s rest ih =>
    obtain ⟨gap, kind, fields⟩ := s
    have h := spaced_submission_armed self gap kind fields harmed
      (hgaps _ (List.mem_cons_self _ _)) (hkinds _ (List.mem_cons_self _ _))
      (hids _ (List.mem_cons_self _ _))
    simp only [List.map_cons, OpQue.submitSpaced, OpQue.submitAll]
    have htick : (self.tick gap).queue = self.queue ∧ (self.tick gap).identifier = self.identifier := by
      unfold OpQue.armed at harmed
      rw [tick_before_due gap self _ harmed (by
        show self.clock + gap < self.clock + _
        have := hgaps _ (List.mem_cons_self _ _)
        omega)]
      exact ⟨rfl, rfl⟩
    have hc := queueOperation_queue_congr (self.tick gap) plain (str kind) (obj fields) undefined
      (htick.1.trans hq) (htick.2.trans hi)
    exact ih _ _ h.1
      (fun s hs => by rw [h.2.2.1]; exact hgaps s (List.mem_cons_of_mem _ hs))
      (fun s hs => hkinds s (List.mem_cons_of_mem _ hs))
      (fun s hs => by rw [h.2.2.2]; exact hids s (List.mem_cons_of_mem _ hs))
      hc.1
      (by rw [queueOperation_identifier, queueOperation_identifier]; exact htick.2.trans hi)

/-- C14 fails as stated: with `flushTime` 10, a CREATE of document 1 made 8
after construction and a DELETE of document 1 made 8 later leave the queue
empty, and when 10 more have passed the callback has not been invoked. -/
theorem C14_submissions_that_cancel_out_are_not_flushed :
    construct (obj [("flushTime", num 10), ("flushCb", func "function () {}"),
      ("identifier", str "_id")]) 0 0
      = Except.ok (OpQue.mk (num 10) "_id" [] 0 0 1 [Interval.mk 0 10 10] [] []) ∧
    ((OpQue.mk (num 10) "_id" [] 0 0 1 [Interval.mk 0 10 10] [] []).submitSpaced
      [(8, CREATE, obj [("_id", num 1)]), (8, DELETE, obj [("_id", num 1)])]).queue = [] ∧
    (((OpQue.mk (num 10) "_id" [] 0 0 1 [Interval.mk 0 10 10] [] []).submitSpaced
      [(8, CREATE, obj [("_id", num 1)]), (8, DELETE, obj [("_id", num 1)])]).tick 10).clock
      = 26 ∧
    (((OpQue.mk (num 10) "_id" [] 0 0 1 [Interval.mk 0 10 10] [] []).submitSpaced
      [(8, CREATE, obj [("_id", num 1)]), (8, DELETE, obj [("_id", num 1)])]).tick 10).flushCalls
      = [] :=
  ⟨rfl, rfl, rfl, rfl⟩

/-- C14 as amended: on a new instance, after submissions that do not throw,
each made less than one period of `flushTime` after the one before (the first
after construction), the queue is what the same submissions leave when made
at once, and the callback is not invoked while less than one period has
passed since the last submission; when one period has passed it has been
invoked exactly once, with that queue, if the queue is not empty, and not at
all if it is empty; time passing after that brings no further invocation. -/
theorem C14_one_flush_a_period_after_the_last_submission (opts : JsVal) (clock nextId : Nat)
    (self : OpQue) (subs : List (Nat × String × Fields))
    (hnew : construct opts clock nextId = Except.ok self)
    (hgaps : ∀ s ∈ subs, s.1 < toPeriod self.flushTime)
    (hkinds : ∀ s ∈ subs, s.2.1 = CREATE ∨ s.2.1 = UPDATE ∨ s.2.1 = DELETE)
    (hids : ∀ s ∈ subs, getField self.identifier s.2.2 ≠ undefined) :
    (self.submitSpaced (subs.map (fun s => (s.1, s.2.1, obj s.2.2)))).queue
      = (self.submitAll (subs.map (fun s => (s.2.1, obj s.2.2)))).queue ∧
    (∀ t, t < toPeriod self.flushTime →
      ((self.submitSpaced (subs.map (fun s => (s.1, s.2.1, obj s.2.2)))).tick t).flushCalls = []) ∧
    ((self.submitSpaced (subs.map (fun s => (s.1, s.2.1, obj s.2.2)))).queue ≠ [] →
      ((self.submitSpaced (subs.map (fun s => (s.1, s.2.1, obj s.2.2)))).tick
        (toPeriod self.flushTime)).flushCalls
        = [(self.submitSpaced (subs.map (fun s => (s.1, s.2.1, obj s.2.2)))).queue]) ∧
    ((self.submitSpaced (subs.map (fun s => (s.1, s.2.1, obj s.2.2)))).queue = [] →
      ((self.submitSpaced (subs.map (fun s => (s.1, s.2.1, obj s.2.2)))).tick
        (toPeriod self.flushTime)).flushCalls = []) ∧
    (∀ more,
      ((self.submitSpaced (subs.map (fun s => (s.1, s.2.1, obj s.2.2)))).tick
        (toPeriod self.flushTime + more)).flushCalls
        = ((self.submitSpaced (subs.map (fun s => (s.1, s.2.1, obj s.2.2)))).tick
          (toPeriod self.flushTime)).flushCalls) := by
  have hsame := submitSpaced_queue subs self self (construct_armed opts clock nextId self hnew)
    hgaps hkinds hids rfl rfl
  refine ⟨hsame, ?_⟩
  clear hsame
  obtain ⟨harmed, hcalls, hft⟩ :=
    submitSpaced_armed subs self (construct_armed opts clock nextId self hnew) hgaps hkinds hids
  rw [(construct_ok opts clock nextId self hnew).2.1] at hcalls
  generalize self.submitSpaced (subs.map (fun s => (s.1, s.2.1, obj s.2.2))) = final
    at harmed hcalls hft
  unfold OpQue.armed at harmed
  rw [hft] at harmed
  obtain ⟨p, hp⟩ : ∃ p, toPeriod self.flushTime = p + 1 :=
    ⟨toPeriod self.flushTime - 1, by have := toPeriod_pos self.flushTime; omega⟩
  have hdue := tick_to_due p final _ harmed (by show final.clock + _ = _; rw [hp])
  refine ⟨fun t ht => ?_, fun hq => ?_, fun hq => ?_, fun more => ?_⟩
  · rw [tick_before_due t final _ harmed (by show final.clock + t < final.clock + _; omega)]
    exact hcalls
  · rw [hp, hdue.2.1 hq, hcalls]; rfl
  · rw [hp, hdue.1 hq, hcalls]
  · rw [tick_add, hp]
    exact (tick_of_empty _ more hdue.2.2).2

/-- Witness of C14, the test `should only call the cb once because the
interval should reset on each addition to the queue`: five CREATEs made 800
apart with `flushTime` 1000, then 1000 more, give one invocation, with the
five records. -/
theorem C14_one_flush_a_period_after_the_last_submission_witness :
    ((getOpque.submitSpaced [(800, CREATE, obj [("_id", num 1)]),
      (800, CREATE, obj [("_id", num 2)]), (800, CREATE, obj [("_id", num 3)]),
      (800, CREATE, obj [("_id", num 4)]), (800, CREATE, obj [("_id", num 5)])]).tick
      1000).flushCalls
      = [[("1", obj [("operation", str CREATE), ("doc", obj [("_id", num 1)])]),
          ("2", obj [("operation", str CREATE), ("doc", obj [("_id", num 2)])]),
          ("3", obj [("operation", str CREATE), ("doc", obj [("_id", num 3)])]),
          ("4", obj [("operation", str CREATE), ("doc", obj [("_id", num 4)])]),
          ("5", obj [("operation", str CREATE), ("doc", obj [("_id", num 5)])])]] ∧
    ((getOpque.submitSpaced [(800, CREATE, obj [("_id", num 1)]),
      (800, CREATE, obj [("_id", num 2)]), (800, CREATE, obj [("_id", num 3)]),
      (800, CREATE, obj [("_id", num 4)]), (800, CREATE, obj [("_id", num 5)])]).tick
      999).flushCalls = [] := by
  have h := C14_one_flush_a_period_after_the_last_submission
    (obj [("flushTime", num 1000), ("flushCb", func "function () {}"),
      ("identifier", str "_id")]) 0 0 getOpque
    [(800, CREATE, [("_id", num 1)]), (800, CREATE, [("_id", num 2)]),
      (800, CREATE, [("_id", num 3)]), (800, CREATE, [("_id", num 4)]),
      (800, CREATE, [("_id", num 5)])]
    rfl
    (by
      intro s hs
      simp only [List.mem_cons, List.mem_singleton, List.not_mem_nil, or_false] at hs
      rcases hs with h | h | h | h | h <;> subst h <;> decide)
    (by
      intro s hs
      simp only [List.mem_cons, List.mem_singleton, List.not_mem_nil, or_false] at hs
      rcases hs with h | h | h | h | h <;> subst h <;> exact Or.inl rfl)
    (by
      intro s hs
      simp only [List.mem_cons, List.mem_singleton, List.not_mem_nil, or_false] at hs
      rcases hs with h | h | h | h | h <;> subst h <;> exact fun e => JsVal.noConfusion e)
  have hq := h.1.trans (show _ =
    [("1", obj [("operation", str CREATE), ("doc", obj [("_id", num 1)])]),
     ("2", obj [("operation", str CREATE), ("doc", obj [("_id", num 2)])]),
     ("3", obj [("operation", str CREATE), ("doc", obj [("_id", num 3)])]),
     ("4", obj [("operation", str CREATE), ("doc", obj [("_id", num 4)])]),
     ("5", obj [("operation", str CREATE), ("doc", obj [("_id", num 5)])])] from rfl)
  refine ⟨?_, h.2.1 999 (by decide)⟩
  have hflush := h.2.2.1 (by rw [hq]; exact fun e => List.noConfusion e)
  rw [hq] at hflush
  exact hflush

/-- C15 fails as stated: with the `flushTime` `'soon'`, a string with no digit
in it, `validateOptions` does not throw and the constructor gives an
instance. -/
theorem C15_any_string_is_accepted_as_flushTime :
    ("soon".toList.any Char.isDigit) = false ∧
    validateOptions (obj [("flushTime", str "soon"), ("flushCb", func "function () {}"),
      ("identifier", str "_id")]) = Except.ok () ∧
    ∃ self, construct (obj [("flushTime", str "soon"), ("flushCb", func "function () {}"),
      ("identifier", str "_id")]) 0 0 = Except.ok self :=
  ⟨by decide, rfl, ⟨_, rfl⟩⟩

/-- C15 as amended: `validateOptions` accepts exactly the options that are an
object whose `flushTime` is a string (any string) or a number, whose
`flushCb` is a function and whose `identifier` is a string, and the
constructor gives an instance exactly for these. -/
theorem C15_options_accepted_iff_well_typed (opts : JsVal) (clock nextId : Nat) :
    (validateOptions opts = Except.ok () ↔
      (Lodash.isObject opts = true ∧
        (Lodash.isString (member opts "flushTime") = true ∨
          Lodash.isNumber (member opts "flushTime") = true) ∧
        Lodash.isFunction (member opts "flushCb") = true ∧
        Lodash.isString (member opts "identifier") = true)) ∧
    ((∃ self, construct opts clock nextId = Except.ok self) ↔
      validateOptions opts = Except.ok ()) := by
  constructor
  · unfold validateOptions
    cases h1 : Lodash.isObject opts <;>
    cases h2 : Lodash.isString (member opts "flushTime") <;>
    cases h3 : Lodash.isNumber (member opts "flushTime") <;>
    cases h4 : Lodash.isFunction (member opts "flushCb") <;>
    cases h5 : Lodash.isString (member opts "identifier") <;>
    simp
  · unfold construct
    cases hv : validateOptions opts with
    | error e => simp
    | ok u => simp

/-- C16: a CREATE for an identifier that has a pending record, of whatever
kind, does not throw: it logs a warning and replaces the record by the CREATE
record of the document of the call (with the metadata of the call, if any),
nothing of the stored document being kept, and every other entry of the queue
stays as it was. -/
theorem C16_create_overwrites_pending_record (self : OpQue) (fields : Fields) (metaData : JsVal)
    (hid : getField self.identifier fields ≠ undefined)
    (hpending : Lodash.isObject (self.currentOperation (obj fields)) = true) :
    (self.queueOperation (str CREATE) (obj fields) metaData).error = none ∧
    (self.queueOperation (str CREATE) (obj fields) metaData).state.currentOperation (obj fields)
      = (if Lodash.isUndefined metaData then obj [("operation", str CREATE), ("doc", obj fields)]
          else obj [("operation", str CREATE), ("doc", obj fields), ("metaData", metaData)]) ∧
    member ((self.queueOperation (str CREATE) (obj fields) metaData).state.currentOperation
      (obj fields)) "operation" = str CREATE ∧
    member ((self.queueOperation (str CREATE) (obj fields) metaData).state.currentOperation
      (obj fields)) "doc" = obj fields ∧
    (∀ other, other ≠ toPropertyKey (getField self.identifier fields) →
      getField other (self.queueOperation (str CREATE) (obj fields) metaData).state.queue
        = getField other self.queue ∧
      hasField other (self.queueOperation (str CREATE) (obj fields) metaData).state.queue
        = hasField other self.queue) ∧
    (self.queueOperation (str CREATE) (obj fields) metaData).state.logCalls
      = self.logCalls ++
        [{ level := "warn",
           message := "OpQue recieved a create for a document that was already in the queue" },
         { level := "debug", message := "queueing operation" }] := by
  rw [queueOperation_create self _ metaData (validateDocument_obj _ _ hid)]
  have hafter := currentOperation_after_create self fields metaData hid
  have hread : Lodash.isObject (self.queued (obj fields)) = true := by
    rw [queued_of_isObject self fields hid hpending]; exact hpending
  refine ⟨rfl, hafter, ?_, ?_, ?_, ?_⟩
  · rw [hafter]; split <;> rfl
  · rw [hafter]; split <;> rfl
  · intro other hother
    simp only [resetFlushInterval_queue, queueCreate_queue self fields metaData hid]
    exact ⟨getField_setField_other _ _ _ _ hother, hasField_setField_other _ _ _ _ hother⟩
  · simp [OpQue._queueCreate, hread, OpQue._queueDoc, OpQue.log, OpQue._resetFlushInterval,
      OpQue.setInterval, OpQue.clearInterval]

/-- Witness of C16: a CREATE of document 1 over a pending UPDATE of document 1
leaves the CREATE record alone. -/
theorem C16_create_overwrites_pending_record_witness :
    Lodash.isObject ((getOpque.queueOperation (str UPDATE)
      (obj [("_id", num 1), ("a", num 1)]) undefined).state.currentOperation
      (obj [("_id", num 1), ("b", num 2)])) = true ∧
    ((getOpque.queueOperation (str UPDATE)
      (obj [("_id", num 1), ("a", num 1)]) undefined).state.queueOperation (str CREATE)
      (obj [("_id", num 1), ("b", num 2)]) undefined).state.currentOperation
      (obj [("_id", num 1), ("b", num 2)])
      = obj [("operation", str CREATE), ("doc", obj [("_id", num 1), ("b", num 2)])] :=
  ⟨rfl, (C16_create_overwrites_pending_record
    (getOpque.queueOperation (str UPDATE) (obj [("_id", num 1), ("a", num 1)]) undefined).state
    [("_id", num 1), ("b", num 2)] undefined
    (fun e => JsVal.noConfusion (show num 1 = undefined from e)) rfl).2.1⟩

theorem setField_setField_same (key : String) (first second : JsVal) (fields : Fields) :
    setField key second (setField key first fields) = setField key second fields := by
  induction fields with
  | nil => simp [setField]
  | cons p rest ih =>
    obtain ⟨k, v⟩ := p
    by_cases hk : k = key
    · simp [setField, hk]
    · simp [setField, hk, ih]

/-- C17 fails as stated: with a CREATE of document 1 pending, one DELETE of
document 1 leaves the queue empty and a second one queues a DELETE record. -/
theorem C17_second_delete_after_create_queues_a_delete :
    ((getOpque.queueOperation (str CREATE) (obj [("_id", num 1)]) undefined).state.queueOperation
      (str DELETE) (obj [("_id", num 1)]) undefined).state.queue = [] ∧
    (((getOpque.queueOperation (str CREATE) (obj [("_id", num 1)]) undefined).state.queueOperation
      (str DELETE) (obj [("_id", num 1)]) undefined).state.queueOperation
      (str DELETE) (obj [("_id", num 1)]) undefined).state.queue
      = [("1", obj [("operation", str DELETE), ("doc", obj [("_id", num 1)])])] ∧
    (((getOpque.queueOperation (str CREATE) (obj [("_id", num 1)]) undefined).state.queueOperation
      (str DELETE) (obj [("_id", num 1)]) undefined).state.queueOperation
      (str DELETE) (obj [("_id", num 1)]) undefined).state.queue
      ≠ ((getOpque.queueOperation (str CREATE) (obj [("_id", num 1)]) undefined).state.queueOperation
        (str DELETE) (obj [("_id", num 1)]) undefined).state.queue :=
  ⟨rfl, rfl, fun e => List.noConfusion
    (show [("1", obj [("operation", str DELETE), ("doc", obj [("_id", num 1)])])] = [] from e)⟩

/-- C17 as amended: where the identifier of the document has no pending
CREATE, a DELETE made twice in a row, with the same document and metadata,
leaves the same queue as the DELETE made once. -/
theorem C17_delete_twice_is_delete_once (self : OpQue) (fields : Fields) (metaData : JsVal)
    (hid : getField self.identifier fields ≠ undefined)
    (hnocreate : (Lodash.isObject (self.currentOperation (obj fields))
      && strictEqStr (member (self.currentOperation (obj fields)) "operation") CREATE) = false) :
    ((self.queueOperation (str DELETE) (obj fields) metaData).state.queueOperation
      (str DELETE) (obj fields) metaData).error = none ∧
    ((self.queueOperation (str DELETE) (obj fields) metaData).state.queueOperation
      (str DELETE) (obj fields) metaData).state.queue
      = (self.queueOperation (str DELETE) (obj fields) metaData).state.queue := by
  have hv := validateDocument_obj fields self.identifier hid
  rw [queueOperation_delete self _ metaData hv]
  have hident : (self._queueDelete (obj fields) metaData)._resetFlushInterval.identifier
      = self.identifier := by
    rw [resetFlushInterval_identifier, queueDelete_identifier]
  have hq1 : (self._queueDelete (obj fields) metaData)._resetFlushInterval.queue
      = setField (toPropertyKey (getField self.identifier fields))
        (if Lodash.isUndefined metaData then obj [("operation", str DELETE), ("doc", obj fields)]
          else obj [("operation", str DELETE), ("doc", obj fields), ("metaData", metaData)])
        self.queue := by
    rw [resetFlushInterval_queue, queueDelete_queue_other self _ metaData hid hnocreate]
  have hcur : ((self._queueDelete (obj fields) metaData)._resetFlushInterval.currentOperation
      (obj fields))
      = (if Lodash.isUndefined metaData then obj [("operation", str DELETE), ("doc", obj fields)]
          else obj [("operation", str DELETE), ("doc", obj fields), ("metaData", metaData)]) := by
    simp only [OpQue.currentOperation, hident, hq1, member, getField_setField_same]
  have hno2 : (Lodash.isObject ((self._queueDelete (obj fields)
        metaData)._resetFlushInterval.currentOperation (obj fields))
      && strictEqStr (member ((self._queueDelete (obj fields)
        metaData)._resetFlushInterval.currentOperation (obj fields)) "operation") CREATE)
      = false := by
    rw [hcur]; split <;> rfl
  simp only []
  rw [queueOperation_delete _ _ metaData (by rw [hident]; exact hv)]
  refine ⟨by trivial, ?_⟩
  simp only [resetFlushInterval_queue]
  rw [queueDelete_queue_other _ _ metaData (by rw [hident]; exact hid) hno2, hident, hq1]
  rw [resetFlushInterval_queue] at hq1
  rw [hq1]
  exact setField_setField_same _ _ _ _

/-- Witness of C17: a DELETE of document 1 made twice on a new instance leaves
the one DELETE record. -/
theorem C17_delete_twice_is_delete_once_witness :
    (Lodash.isObject (getOpque.currentOperation (obj [("_id", num 1)]))
      && strictEqStr (member (getOpque.currentOperation (obj [("_id", num 1)])) "operation")
        CREATE) = false ∧
    ((getOpque.queueOperation (str DELETE) (obj [("_id", num 1)]) undefined).state.queueOperation
      (str DELETE) (obj [("_id", num 1)]) undefined).state.queue
      = [("1", obj [("operation", str DELETE), ("doc", obj [("_id", num 1)])])] :=
  ⟨rfl, (C17_delete_twice_is_delete_once getOpque [("_id", num 1)] undefined
    (fun e => JsVal.noConfusion (show num 1 = undefined from e)) rfl).2.trans rfl⟩

/-- C18: `validateOptions` makes its checks in a fixed order and throws at the
first that fails: the options not being an object; then `flushTime` being
neither a string nor a number, whatever `flushCb` and `identifier` are; then
`flushCb` not being a function, whatever `identifier` is; then `identifier`
not being a string. -/
theorem C18_first_failing_check_is_reported (opts : JsVal) :
    (Lodash.isObject opts = false → validateOptions opts = Except.error optionsError) ∧
    (Lodash.isObject opts = true →
      Lodash.isString (member opts "flushTime") = false →
      Lodash.isNumber (member opts "flushTime") = false →
      validateOptions opts = Except.error flushTimeError) ∧
    (Lodash.isObject opts = true →
      (Lodash.isString (member opts "flushTime") = true ∨
        Lodash.isNumber (member opts "flushTime") = true) →
      Lodash.isFunction (member opts "flushCb") = false →
      validateOptions opts = Except.error flushCbError) ∧
    (Lodash.isObject opts = true →
      (Lodash.isString (member opts "flushTime") = true ∨
        Lodash.isNumber (member opts "flushTime") = true) →
      Lodash.isFunction (member opts "flushCb") = true →
      Lodash.isString (member opts "identifier") = false →
      validateOptions opts = Except.error identifierError) := by
  unfold validateOptions
  refine ⟨fun h1 => ?_, fun h1 h2 h3 => ?_, fun h1 h2 h3 => ?_, fun h1 h2 h3 h4 => ?_⟩
  · simp [h1]
  · simp [h1, h2, h3]
  · rcases h2 with h2 | h2 <;> simp [h1, h2, h3]
  · rcases h2 with h2 | h2 <;> simp [h1, h2, h3, h4]

/-- Witness of C18, the four constructor tests of `opque.spec.js`: no
options, `{}`, `{flushTime: 1000}`, and `flushTime` with `flushCb`. -/
theorem C18_first_failing_check_is_reported_witness :
    validateOptions undefined
      = Except.error "OpQue requires an options object as its only parameter" ∧
    validateOptions (obj [])
      = Except.error "OpQue requires a flushTime to be set in the options" ∧
    validateOptions (obj [("flushTime", num 1000)])
      = Except.error "OpQue requires a flush call back to be set in the options" ∧
    validateOptions (obj [("flushTime", num 1000), ("flushCb", func "function () {}")])
      = Except.error "OpQue requires an identifier to be set in the options" :=
  ⟨(C18_first_failing_check_is_reported undefined).1 rfl,
    (C18_first_failing_check_is_reported (obj [])).2.1 rfl rfl rfl,
    (C18_first_failing_check_is_reported (obj [("flushTime", num 1000)])).2.2.1 rfl
      (Or.inr rfl) rfl,
    (C18_first_failing_check_is_reported
      (obj [("flushTime", num 1000), ("flushCb", func "function () {}")])).2.2.2 rfl
      (Or.inr rfl) rfl rfl⟩

/-! ## The timer handle -/

theorem construct_oneInterval (opts : JsVal) (clock nextId : Nat) (self : OpQue)
    (h : construct opts clock nextId = Except.ok self) : self.oneInterval := by
  obtain ⟨_, _, _, _, hid, hnext, hint⟩ := construct_ok opts clock nextId self h
  exact ⟨⟨_, hint, hid.symm⟩, by omega⟩

theorem resetFlushInterval_oneInterval (self : OpQue) (h : self.oneInterval) :
    self._resetFlushInterval.oneInterval ∧
    self._resetFlushInterval.intervals =
      [{ id := self.nextIntervalId, period := toPeriod self.flushTime,
         due := self.clock + toPeriod self.flushTime }] ∧
    self._resetFlushInterval.intervalId = self.nextIntervalId := by
  obtain ⟨⟨t, hone, hid⟩, _⟩ := h
  have hr := resetFlushInterval_armed self t hone hid
  refine ⟨⟨⟨_, hr.1, ?_⟩, ?_⟩, hr.1, hr.2.1⟩
  · exact hr.2.1.symm
  · rw [hr.2.1, hr.2.2.1]; omega

theorem flush_frame (self : OpQue) :
    self.flush.intervals = self.intervals ∧ self.flush.intervalId = self.intervalId ∧
    self.flush.nextIntervalId = self.nextIntervalId ∧ self.flush.clock = self.clock := by
  unfold OpQue.flush
  split <;> exact ⟨rfl, rfl, rfl, rfl⟩

theorem flush_oneInterval (self : OpQue) (h : self.oneInterval) : self.flush.oneInterval := by
  obtain ⟨hi, hh, hn, _⟩ := flush_frame self
  unfold OpQue.oneInterval
  rw [hi, hh, hn]
  exact h

theorem expire_oneInterval (self : OpQue) (handle : Nat) (h : self.oneInterval) :
    (self.expire handle).oneInterval := by
  obtain ⟨⟨t, hone, hid⟩, hlt⟩ := flush_oneInterval self h
  unfold OpQue.expire OpQue.oneInterval
  simp only [hone, List.map]
  refine ⟨⟨_, rfl, ?_⟩, hlt⟩
  split <;> exact hid

theorem tick_oneInterval (self : OpQue) (ms : Nat) (h : self.oneInterval) :
    (self.tick ms).oneInterval :=
  tick_keeps OpQue.oneInterval (fun _ hs => hs) expire_oneInterval ms self h

theorem queueOperation_oneInterval (self : OpQue) (operation document metaData : JsVal)
    (h : self.oneInterval) :
    (self.queueOperation operation document metaData).state.oneInterval ∧
    ((self.queueOperation operation document metaData).error = none →
      (self.queueOperation operation document metaData).state.intervals =
        [{ id := self.nextIntervalId, period := toPeriod self.flushTime,
           due := self.clock + toPeriod self.flushTime }] ∧
      (self.queueOperation operation document metaData).state.intervalId
        = self.nextIntervalId) := by
  have hframe : ∀ queued : OpQue, queued.flushTime = self.flushTime →
      queued.clock = self.clock → queued.intervalId = self.intervalId →
      queued.nextIntervalId = self.nextIntervalId → queued.intervals = self.intervals →
      queued._resetFlushInterval.oneInterval ∧
      queued._resetFlushInterval.intervals =
        [{ id := self.nextIntervalId, period := toPeriod self.flushTime,
           due := self.clock + toPeriod self.flushTime }] ∧
      queued._resetFlushInterval.intervalId = self.nextIntervalId := by
    intro queued h1 h2 h3 h4 h5
    have hq : queued.oneInterval := by
      unfold OpQue.oneInterval
      rw [h5, h3, h4]
      exact h
    have := resetFlushInterval_oneInterval queued hq
    rw [h1, h2, h4] at this
    exact this
  rcases queueOperation_cases self operation document metaData with ⟨he, hs⟩ | ⟨_, hs | hs | hs⟩
  · rw [hs]
    exact ⟨h, fun hnone => absurd hnone he⟩
  · rw [hs]
    have hf := queueCreate_frame self document metaData
    have := hframe _ hf.2.1 hf.2.2.1 hf.2.2.2.1 hf.2.2.2.2.1 hf.2.2.2.2.2
    exact ⟨this.1, fun _ => this.2⟩
  · rw [hs]
    have hf := queueUpdate_frame self document metaData
    have := hframe _ hf.2.1 hf.2.2.1 hf.2.2.2.1 hf.2.2.2.2.1 hf.2.2.2.2.2
    exact ⟨this.1, fun _ => this.2⟩
  · rw [hs]
    have hf := queueDelete_frame self document metaData
    have := hframe _ hf.2.1 hf.2.2.1 hf.2.2.2.1 hf.2.2.2.2.1 hf.2.2.2.2.2
    exact ⟨this.1, fun _ => this.2⟩

theorem run_oneInterval (actions : List Action) (self : OpQue) (h : self.oneInterval) :
    (self.run actions).oneInterval := by
  induction actions generalizing self with
  | nil => exact h
  | cons action rest ih =>
    apply ih
    cases action with
    | queueOperation operation document metaData =>
      exact (queueOperation_oneInterval self operation document metaData h).1
    | flush => exact flush_oneInterval self h
    | tick ms => exact tick_oneInterval self ms h

/-- C19: in every state a new instance reaches through calls of
`queueOperation` (throwing or not), calls of `flush` and host time passing,
exactly one interval is active and it is the one of the stored handle; a call
of `queueOperation` that does not throw leaves as the only interval a new one,
under a new handle, due one period after the call, so the interval of the
handle stored before is cancelled. -/
theorem C19_one_active_interval (opts : JsVal) (clock nextId : Nat) (self : OpQue)
    (actions : List Action) (hnew : construct opts clock nextId = Except.ok self) :
    (self.run actions).intervals.length = 1 ∧
    (∀ t ∈ (self.run actions).intervals, t.id = (self.run actions).intervalId) ∧
    ∀ operation document metaData,
      ((self.run actions).queueOperation operation document metaData).error = none →
      ((self.run actions).queueOperation operation document metaData).state.intervals =
        [{ id := (self.run actions).nextIntervalId,
           period := toPeriod (self.run actions).flushTime,
           due := (self.run actions).clock + toPeriod (self.run actions).flushTime }] ∧
      ((self.run actions).queueOperation operation document metaData).state.intervalId
        = (self.run actions).nextIntervalId ∧
      (self.run actions).intervalId ≠ (self.run actions).nextIntervalId := by
  have hinv := run_oneInterval actions self (construct_oneInterval opts clock nextId self hnew)
  generalize self.run actions = reached at hinv ⊢
  obtain ⟨⟨t, hone, hid⟩, hlt⟩ := hinv
  refine ⟨by rw [hone]; rfl, ?_, ?_⟩
  · intro u hu
    rw [hone, List.mem_singleton] at hu
    rw [hu]; exact hid
  · intro operation document metaData hok
    have := (queueOperation_oneInterval reached operation document metaData
      ⟨⟨t, hone, hid⟩, hlt⟩).2 hok
    exact ⟨this.1, this.2, by omega⟩

/-- Witness of C19: after a CREATE, 1500 units of time, a call that throws, a
flush and an UPDATE on a new instance, one interval is active. -/
theorem C19_one_active_interval_witness :
    construct (obj [("flushTime", num 1000), ("flushCb", func "function () {}"),
      ("identifier", str "_id")]) 0 0 = Except.ok getOpque ∧
    (getOpque.run [Action.queueOperation (str CREATE) (obj [("_id", num 1)]) undefined,
      Action.tick 1500,
      Action.queueOperation (str "ILLEGAL") (obj [("_id", num 200)]) undefined,
      Action.flush,
      Action.queueOperation (str UPDATE) (obj [("_id", num 2)]) undefined]).intervals.length
      = 1 :=
  ⟨rfl, (C19_one_active_interval
    (obj [("flushTime", num 1000), ("flushCb", func "function () {}"),
      ("identifier", str "_id")]) 0 0 getOpque
    [Action.queueOperation (str CREATE) (obj [("_id", num 1)]) undefined,
      Action.tick 1500,
      Action.queueOperation (str "ILLEGAL") (obj [("_id", num 200)]) undefined,
      Action.flush,
      Action.queueOperation (str UPDATE) (obj [("_id", num 2)]) undefined] rfl).1⟩

/-- C20 at its failing input: on a new instance with the identifier `_id`,
CREATE then DELETE of `{_id: 'docId'}` leaves a queue whose entries are the
characters of `'docId'` under their indexes: none of them is a record, and
the entry under `0` is the string `'d'`. -/
theorem C20_queue_entries_after_create_and_delete_of_string_id :
    ((getOpque.queueOperation (str CREATE) (obj [("_id", str "docId")])
      undefined).state.queueOperation (str DELETE) (obj [("_id", str "docId")])
      undefined).error = none ∧
    ((getOpque.queueOperation (str CREATE) (obj [("_id", str "docId")])
      undefined).state.queueOperation (str DELETE) (obj [("_id", str "docId")])
      undefined).state.queue
      = [("0", str "d"), ("1", str "o"), ("2", str "c"), ("3", str "I"), ("4", str "d")] ∧
    Lodash.isObject (getField "0" ((getOpque.queueOperation (str CREATE)
      (obj [("_id", str "docId")]) undefined).state.queueOperation (str DELETE)
      (obj [("_id", str "docId")]) undefined).state.queue) = false ∧
    member (getField "0" ((getOpque.queueOperation (str CREATE)
      (obj [("_id", str "docId")]) undefined).state.queueOperation (str DELETE)
      (obj [("_id", str "docId")]) undefined).state.queue) "operation" = undefined :=
  ⟨rfl, rfl, rfl, rfl⟩

end Opque
